import Mathlib

/-!
Verification development for the college-counselor-bot retrieval pipeline.

The JavaScript source (`server` module and browser script) is shallowly
embedded here.  Modelling conventions, used consistently below:

* JS strings are sequences of UTF-16 code units, modelled as `List Nat`.
  `codeUnits` converts a Lean string literal to that representation
  (astral code points are expanded into surrogate pairs, as in JS).
* JS case conversion (`toLowerCase` / `toUpperCase`) is modelled on the
  ASCII range, which covers every string the program manipulates.
* A JSON field that may be absent is modelled as an `Option`; `none`
  stands for a JS-falsy value (absent / `undefined` / `null` / `""`),
  which is how every such field is tested in the source.
* The three network collaborators (embedding provider, web-search API,
  LLM completion) are modelled as oracle inputs: the embedding stage
  receives the index together with each item's cosine similarity for the
  current query, and each `fetch` of the web-search API receives an
  outcome chosen by the oracle.  A thrown JS exception is modelled as
  `Except.error`.
* `Array.prototype.sort` (stable since ES2019) with the comparators used
  in the source (all of which induce total preorders) is modelled by the
  stable `List.insertionSort` on the corresponding `≤` relation.
-/

/-- UTF-16 code units of one character (surrogate pair for astral chars). -/
def charUnits (c : Char) : List Nat :=
  if c.toNat < 0x10000 then [c.toNat]
  else [0xD800 + (c.toNat - 0x10000) / 0x400, 0xDC00 + (c.toNat - 0x10000) % 0x400]

/-- UTF-16 code units of a string, the JS string representation. -/
def codeUnits (s : String) : List Nat :=
  s.data.flatMap charUnits

/-- JS regex `\s` character class (whitespace, as in `String.trim`). -/
def isWsCode (c : Nat) : Bool :=
  c = 9 || c = 10 || c = 11 || c = 12 || c = 13 || c = 32 || c = 160 ||
  c = 0x1680 || (0x2000 ≤ c && c ≤ 0x200a) || c = 0x2028 || c = 0x2029 ||
  c = 0x202f || c = 0x205f || c = 0x3000 || c = 0xfeff

/-- JS regex `\w` character class: `[A-Za-z0-9_]`. -/
def isWordCode (c : Nat) : Bool :=
  (48 ≤ c && c ≤ 57) || (65 ≤ c && c ≤ 90) || (97 ≤ c && c ≤ 122) || c = 95

/-- `[A-Z]`. -/
def isUpperAZ (c : Nat) : Bool := 65 ≤ c && c ≤ 90

/-- `[a-z]`. -/
def isLowerAZ (c : Nat) : Bool := 97 ≤ c && c ≤ 122

/-- `[0-9]`. -/
def isDigitCode (c : Nat) : Bool := 48 ≤ c && c ≤ 57

/-- `[a-z0-9]`. -/
def isLowerAlnum (c : Nat) : Bool := isLowerAZ c || isDigitCode c

/-- ASCII model of JS `toLowerCase` on one code unit. -/
def lowerCode (c : Nat) : Nat := if isUpperAZ c then c + 32 else c

/-- ASCII model of JS `toUpperCase` on one code unit. -/
def upperCode (c : Nat) : Nat := if isLowerAZ c then c - 32 else c

/-- JS `s.toLowerCase()`. -/
def toLowerU (l : List Nat) : List Nat := l.map lowerCode

/-- JS `s.toUpperCase()`. -/
def toUpperU (l : List Nat) : List Nat := l.map upperCode

/-- Drop trailing elements satisfying `p`. -/
def dropTrailing (p : Nat → Bool) (l : List Nat) : List Nat :=
  (l.reverse.dropWhile p).reverse

/-- JS `s.trim()`: strip leading and trailing whitespace. -/
def trimU (l : List Nat) : List Nat :=
  dropTrailing isWsCode (l.dropWhile isWsCode)

/-- JS `a.startsWith(b)` / list prefix test. -/
def isPrefixU : List Nat → List Nat → Bool
  | [], _ => true
  | _ :: _, [] => false
  | a :: as, b :: bs => a = b && isPrefixU as bs

/-- JS `b.includes(a)`: `a` occurs as a contiguous substring of `b`. -/
def isInfixU (a b : List Nat) : Bool :=
  b.tails.any (fun t => isPrefixU a t)

/-- State-machine core of a global replace of `p`-runs by a single space. -/
def collapseGo (p : Nat → Bool) : Bool → List Nat → List Nat
  | _, [] => []
  | inRun, c :: rest =>
    if p c then
      (if inRun then collapseGo p true rest else 32 :: collapseGo p true rest)
    else c :: collapseGo p false rest

/-- JS `s.replace(re, " ")` where `re` globally matches runs of `p`-chars
(used with `[\s-]+`). -/
def collapseRuns (p : Nat → Bool) (l : List Nat) : List Nat :=
  collapseGo p false l

/-- `\s` or hyphen, the class in `canonCourse`'s `[\s-]+`. -/
def isWsOrHyphen (c : Nat) : Bool := isWsCode c || c = 45

/-- JS `s.replace(/\s+/, " ")` — replaces only the FIRST whitespace run. -/
def replaceFirstWsRun : List Nat → List Nat
  | [] => []
  | c :: rest =>
    if isWsCode c then 32 :: rest.dropWhile isWsCode
    else c :: replaceFirstWsRun rest

/-- State machine for JS `s.split(re)` where `re` matches runs of `p`-chars:
keeps empty pieces at the edges exactly as JS does. -/
def splitRunsGo (p : Nat → Bool) : List Nat → List Nat → Bool → List (List Nat)
  | [], cur, _ => [cur.reverse]
  | c :: rest, cur, inSep =>
    if p c then
      (if inSep then splitRunsGo p rest [] true
       else cur.reverse :: splitRunsGo p rest [] true)
    else splitRunsGo p rest (c :: cur) false

/-- JS `s.split(/\s+/)`-style split (runs of `p`-chars as separators). -/
def splitRuns (p : Nat → Bool) (l : List Nat) : List (List Nat) :=
  splitRunsGo p l [] false

/-- JS `arr.join(sep)`. -/
def joinSep (sep : List Nat) : List (List Nat) → List Nat
  | [] => []
  | [x] => x
  | x :: xs => x ++ sep ++ joinSep sep xs

/-- JS `[...new Set(arr)]`: de-duplicate keeping first occurrences. -/
def dedupKeepFirst : List (List Nat) → List (List Nat)
  | [] => []
  | x :: xs => x :: (dedupKeepFirst xs).filter (fun y => ¬ y = x)

/-- Tokens of the simple regexes used by the source (literals and
whitespace quantifiers); alternation is expressed as a list of
alternative token sequences. -/
inductive RTok where
  | lit (w : List Nat)
  | wsPlus
  | wsStar
deriving DecidableEq

/-- Match a token sequence at the head of `l`; returns the rest on
success.  Whitespace quantifiers are greedy, which is faithful here
because in every regex of the source they are followed by a non-blank
literal. -/
def matchToks : List RTok → List Nat → Option (List Nat)
  | [], l => some l
  | RTok.lit w :: ts, l =>
    if isPrefixU w l then matchToks ts (l.drop w.length) else none
  | RTok.wsPlus :: ts, l =>
    match l with
    | [] => none
    | c :: rest =>
      if isWsCode c then matchToks ts (rest.dropWhile isWsCode) else none
  | RTok.wsStar :: ts, l => matchToks ts (l.dropWhile isWsCode)

/-- Does some alternative match at the head of `l`, with an optional
trailing word-boundary requirement (`\b` after the match)? -/
def matchAltsHere (alts : List (List RTok)) (postB : Bool) (l : List Nat) : Bool :=
  alts.any (fun ts =>
    match matchToks ts l with
    | none => false
    | some rest =>
      if postB then
        match rest with
        | [] => true
        | c :: _ => ¬ isWordCode c
      else true)

/-- Scan of `re.test(s)` for a regex `(alt₁|alt₂|…)`, with optional `\b`
before and after the group.  `prev` carries the previous code unit for
the leading word-boundary test (all alternatives start with a word
character in the regexes modelled). -/
def scanTestGo (preB postB : Bool) (alts : List (List RTok)) :
    Option Nat → List Nat → Bool
  | _, [] => false
  | prev, c :: rest =>
    let boundaryOk : Bool :=
      if preB then
        match prev with
        | none => true
        | some p => ¬ isWordCode p
      else true
    (boundaryOk && matchAltsHere alts postB (c :: rest)) ||
      scanTestGo preB postB alts (some c) rest

/-- JS `re.test(s)` for the simple regexes of the source. -/
def scanTest (preB : Bool) (alts : List (List RTok)) (postB : Bool)
    (l : List Nat) : Bool :=
  scanTestGo preB postB alts none l

/-- `canonCourse(s)` from the source: uppercase, replace `[\s-]+` runs by a
single space, trim. -/
def canonCourse (s : List Nat) : List Nat :=
  trimU (collapseRuns isWsOrHyphen (toUpperU s))

/-- One attempt of `/\b([A-Z]{2,5})\s?(\d{1,3}[A-Z]?)\b/` at the head of
`l`, in the regex engine's backtracking order (letters greedy 5..2, `\s?`
greedy, digits greedy 3..1, optional letter greedy, then trailing `\b`).
Returns `(emitted code, consumed length)`. -/
def tryCodeAt (l : List Nat) : Option (List Nat × Nat) :=
  [5, 4, 3, 2].findSome? (fun lc =>
    let letters := l.take lc
    if letters.length = lc ∧ letters.all isUpperAZ then
      let rest1 := l.drop lc
      [1, 0].findSome? (fun wc =>
        let wsOk : Bool :=
          if wc = 1 then (match rest1 with | c :: _ => isWsCode c | [] => false)
          else true
        if wsOk then
          let rest2 := rest1.drop wc
          [3, 2, 1].findSome? (fun dc =>
            let digits := rest2.take dc
            if digits.length = dc ∧ digits.all isDigitCode then
              let rest3 := rest2.drop dc
              [1, 0].findSome? (fun oc =>
                let letterOk : Bool :=
                  if oc = 1 then (match rest3 with | c :: _ => isUpperAZ c | [] => false)
                  else true
                if letterOk then
                  let rest4 := rest3.drop oc
                  let boundary : Bool :=
                    match rest4 with
                    | [] => true
                    | c :: _ => ¬ isWordCode c
                  if boundary then
                    some (trimU (letters ++ [32] ++ digits ++ rest3.take oc),
                      lc + wc + dc + oc)
                  else none
                else none)
            else none)
        else none)
    else none)

/-- Global scan of the course-code regex over the uppercased text, with
the leading `\b` tested against the previous code unit and `lastIndex`
continuation after each match. -/
def extractGo : Nat → Option Nat → List Nat → List (List Nat)
  | 0, _, _ => []
  | _ + 1, _, [] => []
  | fuel + 1, prev, c :: rest =>
    let boundaryOk : Bool :=
      match prev with
      | none => true
      | some p => ¬ isWordCode p
    if boundaryOk then
      match tryCodeAt (c :: rest) with
      | some (code, len) =>
        code :: extractGo fuel ((c :: rest).take len).getLast? ((c :: rest).drop len)
      | none => extractGo fuel (some c) rest
    else extractGo fuel (some c) rest

/-- `extractCourseCodes(text)`: scan the uppercased text for course-code
shaped tokens and de-duplicate keeping first occurrences. -/
def extractCourseCodes (text : List Nat) : List (List Nat) :=
  let t := toUpperU text
  dedupKeepFirst (extractGo (t.length + 1) none t)

/-- `resolveCourseAlias(text)`: the fixed calculus nickname map. -/
def resolveCourseAlias (text : List Nat) : Option (List Nat) :=
  let s := toLowerU text
  if scanTest true
      [[RTok.lit (codeUnits ("calculus")), RTok.wsStar, RTok.lit (codeUnits ("i"))],
       [RTok.lit (codeUnits ("calc")), RTok.wsStar, RTok.lit (codeUnits ("i"))],
       [RTok.lit (codeUnits ("math")), RTok.wsStar, RTok.lit (codeUnits ("1a"))]] true s then
    some (codeUnits ("MATH 1A"))
  else if scanTest true
      [[RTok.lit (codeUnits ("calculus")), RTok.wsStar, RTok.lit (codeUnits ("ii"))],
       [RTok.lit (codeUnits ("calc")), RTok.wsStar, RTok.lit (codeUnits ("ii"))],
       [RTok.lit (codeUnits ("math")), RTok.wsStar, RTok.lit (codeUnits ("1b"))]] true s then
    some (codeUnits ("MATH 1B"))
  else if scanTest true
      [[RTok.lit (codeUnits ("calculus")), RTok.wsStar, RTok.lit (codeUnits ("iii"))],
       [RTok.lit (codeUnits ("calc")), RTok.wsStar, RTok.lit (codeUnits ("iii"))],
       [RTok.lit (codeUnits ("math")), RTok.wsStar, RTok.lit (codeUnits ("1c"))]] true s then
    some (codeUnits ("MATH 1C"))
  else none

/-- Result of `parseRankIntent`. -/
structure RankIntent where
  tags : List (List Nat)
  asked : Bool
deriving DecidableEq

/-- `parseRankIntent(query)`: which ranking tags the query asks for. -/
def parseRankIntent (query : List Nat) : RankIntent :=
  let q := toLowerU query
  let wantBest :=
    scanTest false
      [[RTok.lit (codeUnits ("best")), RTok.wsPlus, RTok.lit (codeUnits ("prof"))],
       [RTok.lit (codeUnits ("best")), RTok.wsPlus, RTok.lit (codeUnits ("professor"))]] false q ||
    scanTest true [[RTok.lit (codeUnits ("top"))]] true q
  let wantSecond :=
    scanTest false
      [[RTok.lit (codeUnits ("second")), RTok.wsPlus, RTok.lit (codeUnits ("best"))],
       [RTok.lit (codeUnits ("2nd")), RTok.wsPlus, RTok.lit (codeUnits ("best"))]] false q
  let wantEasiest := scanTest true [[RTok.lit (codeUnits ("easiest"))]] true q
  let wantTeach :=
    scanTest false
      [[RTok.lit (codeUnits ("best")), RTok.wsPlus, RTok.lit (codeUnits ("teaching"))],
       [RTok.lit (codeUnits ("teaches")), RTok.wsPlus, RTok.lit (codeUnits ("best"))],
       [RTok.lit (codeUnits ("best")), RTok.wsPlus, RTok.lit (codeUnits ("teacher"))]] false q
  let tags :=
    (if wantSecond then [codeUnits ("second_best")] else []) ++
    (if wantEasiest then [codeUnits ("easiest")] else []) ++
    (if wantTeach then [codeUnits ("best_teaching")] else [])
  let tags := if tags = [] ∧ wantBest then [codeUnits ("best_overall")] else tags
  { tags := tags, asked := wantBest || wantSecond || wantEasiest || wantTeach }

/-- `extractDeptHint(text)`. -/
def extractDeptHint (text : List Nat) : Option (List Nat) :=
  let t := toLowerU text
  if isInfixU (codeUnits ("math")) t then some (codeUnits ("mathematics"))
  else if isInfixU (codeUnits ("cs")) t || isInfixU (codeUnits ("computer science")) t ||
      isInfixU (codeUnits ("cis")) t then some (codeUnits ("computer science"))
  else if isInfixU (codeUnits ("physics")) t then some (codeUnits ("physics"))
  else if isInfixU (codeUnits ("chem")) t then some (codeUnits ("chemistry"))
  else none

/-- `scoreItem(query, text)`: keyword-overlap count plus a start-of-text
bonus. -/
def scoreItem (query text : List Nat) : ℚ :=
  let q := toLowerU query
  let t := toLowerU text
  if q = [] ∨ t = [] then 0
  else
    let kw := ((splitRuns (fun c => ¬ isWordCode c) q).filter (fun w => ¬ w = [])).foldl
      (fun acc w => if isInfixU w t then acc + 1 else acc) (0 : ℚ)
    kw + (if isPrefixU q t then 2 else 0)

/-- One ranking-list entry (`rankings[code][i]` in the KB document). -/
structure RankEntry where
  name : List Nat
  rank : Option Nat
  tags : List (List Nat)
  notes : Option (List Nat)
deriving DecidableEq

/-- A professor record of the KB. -/
structure Professor where
  name : List Nat
  department : Option (List Nat)
  rating : Option (List Nat)
  num_ratings : Option (List Nat)
  rmp_url : Option (List Nat)
  reviews : Option (List Nat)
  courses : List (List Nat)
deriving DecidableEq

/-- A course record of the KB. -/
structure Course where
  code : List Nat
  title : List Nat
  department : List Nat
  description : Option (List Nat)
  notes : Option (List Nat)
deriving DecidableEq

/-- A deadline record of the KB. -/
structure Deadline where
  term : List Nat
  category : List Nat
  description : List Nat
  date : List Nat
  time : Option (List Nat)
  notes : Option (List Nat)
  keywords : List (List Nat)
deriving DecidableEq

/-- An FAQ record of the KB. -/
structure Faq where
  q : List Nat
  a : List Nat
  keywords : List (List Nat)
deriving DecidableEq

/-- A major record of the KB. -/
structure Major where
  campus : List Nat
  program : List Nat
  aliases : List (List Nat)
  lower_division : List (List Nat)
  upper_division : List (List Nat)
  notes : Option (List Nat)
  source_url : Option (List Nat)
deriving DecidableEq

/-- The in-memory knowledge base `SCHOOL_DB` (school name and website
flattened from `SCHOOL_DB.school`). -/
structure KB where
  schoolName : List Nat
  schoolWebsite : List Nat
  deadlines : List Deadline
  professors : List Professor
  courses : List Course
  faq : List Faq
  majors : List Major
  rankings : List (List Nat × List RankEntry)
deriving DecidableEq

/-- The process-wide `SESSION` object. -/
structure Session where
  lastCourse : Option (List Nat)
  lastProfessor : Option (List Nat)
  rankCursor : List (List Nat × Nat)
deriving DecidableEq

/-- JS object property update: overwrite in place, else append. -/
def setAssoc {β : Type} (k : List Nat) (v : β) :
    List (List Nat × β) → List (List Nat × β)
  | [] => [(k, v)]
  | (k2, v2) :: rest => if k2 = k then (k, v) :: rest else (k2, v2) :: setAssoc k v rest

/-- Dedup key of the professor merge block: `name.toLowerCase().trim()`. -/
def profKey (p : Professor) : List Nat := trimU (toLowerU p.name)

/-- The object spread `{...base, ...p, courses: mergedCourses}`: fields
present on the later entry overwrite the earlier one. -/
def spreadMerge (base p : Professor) (mergedCourses : List (List Nat)) : Professor :=
  { name := p.name,
    department := p.department <|> base.department,
    rating := p.rating <|> base.rating,
    num_ratings := p.num_ratings <|> base.num_ratings,
    rmp_url := p.rmp_url <|> base.rmp_url,
    reviews := p.reviews <|> base.reviews,
    courses := mergedCourses }

/-- Fold of the dedup block over the professor list, accumulating the
`byName` map (a JS `Map`, which preserves first-insertion order). -/
def dedupGo : List (List Nat × Professor) → List Professor → List (List Nat × Professor)
  | acc, [] => acc
  | acc, p :: ps =>
    let key := profKey p
    if key = [] then dedupGo acc ps
    else
      match acc.lookup key with
      | none => dedupGo (acc ++ [(key, { p with courses := dedupKeepFirst p.courses })]) ps
      | some base =>
        dedupGo (setAssoc key (spreadMerge base p (dedupKeepFirst (base.courses ++ p.courses))) acc) ps

/-- The professor de-duplication/merge block run at KB load. -/
def dedupProfessors (ps : List Professor) : List Professor :=
  (dedupGo [] ps).map Prod.snd

/-- `VALID_CODES`: canonical codes from the course list and ranking keys. -/
def validCodes (kb : KB) : List (List Nat) :=
  kb.courses.map (fun c => canonCourse c.code) ++ kb.rankings.map (fun r => canonCourse r.1)

/-- `courseCodesInQuery` after both alias fallbacks at the top of
`searchLocalKB`. -/
def resolvedCodes (kb : KB) (query : List Nat) : List (List Nat) :=
  let codes0 := (extractCourseCodes query).map canonCourse
  let codes1 :=
    if codes0 = [] then
      match resolveCourseAlias query with
      | some a => [canonCourse a]
      | none => codes0
    else codes0
  if ¬ codes1 = [] ∧ ¬ codes1.any (fun c => (validCodes kb).contains c) then
    match resolveCourseAlias query with
    | some a => [canonCourse a]
    | none => codes1
  else codes1

/-- Hit type tags of the retrieval pipeline. -/
inductive HitType where
  | deadline
  | professor
  | course
  | faq
  | major
  | ranking
deriving DecidableEq

/-- The denormalized professor sub-record carried by `ranking` hits. -/
structure MergedProf where
  name : List Nat
  department : List Nat
  rating : Option (List Nat)
  num_ratings : Option (List Nat)
  rmp_url : Option (List Nat)
  courses : List (List Nat)
  review_or_notes : Option (List Nat)
deriving DecidableEq

/-- Payload of a `ranking` hit. -/
structure RankingData where
  course : List Nat
  tags : List (List Nat)
  rank : Option Nat
  prof : MergedProf
deriving DecidableEq

/-- Typed payload of a hit. -/
inductive HitData where
  | deadline (d : Deadline)
  | professor (p : Professor)
  | course (c : Course)
  | faq (f : Faq)
  | major (m : Major)
  | ranking (r : RankingData)
deriving DecidableEq

/-- One candidate result of the retrieval pipeline. -/
structure Hit where
  type : HitType
  score : ℚ
  data : HitData
deriving DecidableEq

/-- JS `x || d` on the optional numeric `rank` field: `0` is falsy. -/
def rankOr (d : Nat) (r : Option Nat) : Nat :=
  match r with
  | some n => if n = 0 then d else n
  | none => d

/-- Comparator relation of `.sort((a,b) => (a.rank || 999) - (b.rank || 999))`
used by the ranking stage of `searchLocalKB`. -/
def rankLe (a b : RankEntry) : Prop := rankOr 999 a.rank ≤ rankOr 999 b.rank

instance : DecidableRel rankLe := fun a b => by unfold rankLe; infer_instance

instance : IsTotal RankEntry rankLe := ⟨fun a b => le_total _ _⟩

instance : IsTrans RankEntry rankLe := ⟨fun _ _ _ => le_trans⟩

/-- Comparator relation of `.sort((a,b) => (a.rank ?? 999) - (b.rank ?? 999))`
used by the two handler blocks (`??` keeps a literal rank 0). -/
def rankLeH (a b : RankEntry) : Prop := a.rank.getD 999 ≤ b.rank.getD 999

instance : DecidableRel rankLeH := fun a b => by unfold rankLeH; infer_instance

instance : IsTotal RankEntry rankLeH := ⟨fun a b => le_total _ _⟩

instance : IsTrans RankEntry rankLeH := ⟨fun _ _ _ => le_trans⟩

/-- The course's ranking list as sorted by the ranking stage of
`searchLocalKB`. -/
def sortedRankingSearch (kb : KB) (code : List Nat) : List RankEntry :=
  ((kb.rankings.lookup code).getD []).insertionSort rankLe

/-- The course's ranking list as sorted by the chat-handler blocks. -/
def sortedRankingH (kb : KB) (code : List Nat) : List RankEntry :=
  ((kb.rankings.lookup code).getD []).insertionSort rankLeH

/-- `chosen` of the ranking stage: tag-filtered (falling back to the whole
list), capped at 3. -/
def rankChosen (kb : KB) (query : List Nat) (code : List Nat) : List RankEntry :=
  let list := sortedRankingSearch kb code
  let wantTags := (parseRankIntent query).tags
  let tagMatches :=
    if wantTags = [] then list
    else list.filter (fun item => item.tags.any (fun t => wantTags.contains t))
  (if tagMatches = [] then list else tagMatches).take 3

/-- JS `x || null` on the optional `rank` field. -/
def rankField (r : Option Nat) : Option Nat :=
  match r with
  | some 0 => none
  | x => x

/-- One `ranking` hit of the ranking stage, with the professor join. -/
def mkRankingHit (kb : KB) (code : List Nat) (r : RankEntry) : Hit :=
  let prof := kb.professors.find? (fun p => toLowerU p.name = toLowerU r.name)
  let merged : MergedProf :=
    { name := r.name,
      department := (prof.bind (fun p => p.department)).getD (codeUnits ("(dept)")),
      rating := prof.bind (fun p => p.rating),
      num_ratings := prof.bind (fun p => p.num_ratings),
      rmp_url := prof.bind (fun p => p.rmp_url),
      courses := match prof with | some p => p.courses | none => [code],
      review_or_notes := r.notes <|> prof.bind (fun p => p.reviews) }
  { type := HitType.ranking,
    score := 100 - (rankOr 99 r.rank : ℚ) * 2,
    data := HitData.ranking
      { course := code, tags := r.tags, rank := rankField r.rank, prof := merged } }

/-- The `course` hit (score 0) appended by the ranking stage when the
resolved code exists in the course list. -/
def rankingCourseHits (kb : KB) (code : List Nat) : List Hit :=
  match kb.courses.find? (fun c => canonCourse c.code = code) with
  | some ci => [{ type := HitType.course, score := 0, data := HitData.course ci }]
  | none => []

/-- An embedding-index item together with its cosine similarity against
the current query (similarities are supplied by the embedding oracle). -/
structure SimItem where
  type : HitType
  data : HitData
  sim : ℚ
deriving DecidableEq

/-- Comparator relation of `.sort((a,b) => b.sim - a.sim)`. -/
def simLe (a b : SimItem) : Prop := b.sim ≤ a.sim

instance : DecidableRel simLe := fun a b => by unfold simLe; infer_instance

instance : IsTotal SimItem simLe := ⟨fun a b => Or.symm (le_total a.sim b.sim)⟩

instance : IsTrans SimItem simLe := ⟨fun _ _ _ h1 h2 => le_trans h2 h1⟩

/-- Oracle for the collaborator calls of one `searchLocalKB` invocation. -/
structure WebItem where
  title : Option (List Nat)
  link : Option (List Nat)
  snippet : List Nat
  displayLink : List Nat
deriving DecidableEq

/-- Outcome of one `fetch` of the web-search API. -/
inductive FetchOutcome where
  | netError
  | httpError (status : Nat)
  | okMalformed
  | okJson (items : Option (List WebItem))
deriving DecidableEq

/-- Oracle inputs of one `searchLocalKB` invocation: web credentials,
the `fetch` outcome per query string, the embedding index with this
query's similarity per item, and whether `embed(query)` succeeded. -/
structure Oracle where
  creds : Bool
  fetch : List Nat → FetchOutcome
  embIndex : List SimItem
  embOk : Bool

/-- JS `Math.round` (round half toward positive infinity), in the
executable floor form. -/
def jsRound (q : ℚ) : ℤ := Rat.floor (q + 1/2)

/-- `MIN_SIM` filter and top-3 cut of the semantic-search stage. -/
def semanticTop (o : Oracle) : List SimItem :=
  ((o.embIndex.insertionSort simLe).filter (fun s => (39/50 : ℚ) ≤ s.sim)).take 3

/-- Hits returned by the semantic-search stage. -/
def semanticHits (o : Oracle) : List Hit :=
  (semanticTop o).map (fun s =>
    { type := s.type, score := ((jsRound ((100 : ℚ) * s.sim)) : ℚ), data := s.data })

/-- Text blob of a deadline for keyword scoring. -/
def deadlineBlob (d : Deadline) : List Nat :=
  d.term ++ [32] ++ d.category ++ [32] ++ d.description ++ [32] ++ d.date ++ [32] ++
  d.time.getD [] ++ [32] ++ d.notes.getD [] ++ [32] ++ joinSep [32] d.keywords

/-- Text blob of a professor for keyword scoring (absent interpolated
fields render as the string form of `undefined`, as in JS templates). -/
def profBlob (p : Professor) : List Nat :=
  p.name ++ [32] ++ p.department.getD (codeUnits ("undefined")) ++ [32] ++
  joinSep [32] p.courses ++ [32] ++ p.rating.getD (codeUnits ("undefined")) ++ [32] ++
  p.reviews.getD []

/-- Text blob of a course for keyword scoring. -/
def courseBlob (c : Course) : List Nat :=
  c.code ++ [32] ++ c.title ++ [32] ++ c.department ++ [32] ++
  c.description.getD [] ++ [32] ++ c.notes.getD []

/-- Text blob of an FAQ for keyword scoring. -/
def faqBlob (f : Faq) : List Nat :=
  f.q ++ [32] ++ f.a ++ [32] ++ joinSep [32] f.keywords

/-- Canonical forms of a professor's course list (same operations as
`canonCourse`). -/
def profCanonCourses (p : Professor) : List (List Nat) :=
  p.courses.map canonCourse

/-- The professor-specific bonus scorer of the keyword stage. -/
def profExtraScore (p : Professor) (courseCodes : List (List Nat))
    (dept : Option (List Nat)) : ℚ :=
  let profCourses := profCanonCourses p
  let b1 := courseCodes.foldl
    (fun acc code => if profCourses.contains (canonCourse code) then acc + 8 else acc) (0 : ℚ)
  let b2 :=
    match dept with
    | some d => if toLowerU (p.department.getD []) = d then (3 : ℚ) else 0
    | none => 0
  let teaches := courseCodes.any (fun code => profCourses.contains (canonCourse code))
  let b3 : ℚ := if ¬ courseCodes = [] ∧ ¬ teaches = true then -4 else 0
  b1 + b2 + b3

/-- `c.toUpperCase().replace(/\s+/, " ").trim()` — note the non-global
replace touches only the first whitespace run. -/
def courseNormFirst (c : List Nat) : List Nat :=
  trimU (replaceFirstWsRun (toUpperU c))

/-- The course-specific bonus scorer of the keyword stage. -/
def courseExtraScore (c : Course) (courseCodes : List (List Nat)) : ℚ :=
  let normCode := courseNormFirst c.code
  courseCodes.foldl
    (fun acc code => if normCode = courseNormFirst code then acc + 6 else acc) (0 : ℚ)

/-- `pushHits`: score each item, keep those with positive score. -/
def pushHits {α : Type} (query : List Nat) (items : List α) (ty : HitType)
    (blob : α → List Nat) (extra : α → ℚ) (toData : α → HitData) : List Hit :=
  items.filterMap (fun item =>
    let s := scoreItem query (blob item) + extra item
    if 0 < s then some { type := ty, score := s, data := toData item } else none)

/-- All hits accumulated by the keyword stage, in source push order
(deadlines, professors, courses, FAQ). -/
def keywordHits (kb : KB) (query : List Nat) (codes : List (List Nat))
    (dept : Option (List Nat)) : List Hit :=
  pushHits query kb.deadlines HitType.deadline deadlineBlob (fun _ => 0) HitData.deadline ++
  pushHits query kb.professors HitType.professor profBlob
    (fun p => profExtraScore p codes dept) HitData.professor ++
  pushHits query kb.courses HitType.course courseBlob
    (fun c => courseExtraScore c codes) HitData.course ++
  pushHits query kb.faq HitType.faq faqBlob (fun _ => 0) HitData.faq

/-- Position of a hit under the professors-first tie-break. -/
def profRankOf (h : Hit) : Nat := if h.type = HitType.professor then 0 else 1

/-- Comparator relation of the keyword-stage `hits.sort(...)`: when the
query asked for a best professor with a course code, professors come
first; ties (and the plain case) order by descending score. -/
def hitLe (asked : Bool) (a b : Hit) : Prop :=
  if asked then
    profRankOf a < profRankOf b ∨ (profRankOf a = profRankOf b ∧ b.score ≤ a.score)
  else b.score ≤ a.score

instance (asked : Bool) : DecidableRel (hitLe asked) := fun a b => by
  unfold hitLe; exact instDecidableIte

/-- `askedBestProfForCourse`. -/
def askedBestProf (query : List Nat) (codes : List (List Nat)) : Bool :=
  scanTest false
    [[RTok.lit (codeUnits ("best")), RTok.wsPlus, RTok.lit (codeUnits ("prof"))],
     [RTok.lit (codeUnits ("best")), RTok.wsPlus, RTok.lit (codeUnits ("professor"))]]
    false (toLowerU query) && ¬ codes.isEmpty

/-- Whether a (professor) hit teaches one of the requested codes, as
tested by the hard-filter block. -/
def hardFilterTeaches (codes : List (List Nat)) (h : Hit) : Bool :=
  match h.data with
  | HitData.professor p =>
    let profCourses := p.courses.map courseNormFirst
    codes.any (fun code => profCourses.contains (courseNormFirst code))
  | _ => false

/-- The hard-filter block: professors teaching a requested code (cap 2)
plus at most one course card; `none` when no professor matches (graceful
fall-through). -/
def hardFilter (codes : List (List Nat)) (hits : List Hit) : Option (List Hit) :=
  let profThatTeach :=
    (hits.filter (fun h => h.type = HitType.professor)).filter (hardFilterTeaches codes)
  if profThatTeach = [] then none
  else
    let courseCard := hits.find? (fun h => h.type = HitType.course)
    some ((profThatTeach.take 2 ++
      (match courseCard with | some c => [c] | none => [])).take 3)

/-- Comparator relation of `.sort((a,b) => b.score - a.score)`. -/
def scoreLe (a b : Hit) : Prop := b.score ≤ a.score

instance : DecidableRel scoreLe := fun a b => by unfold scoreLe; infer_instance

/-- `isMajorReqQuery(s)`. -/
def isMajorReqQuery (s : List Nat) : Bool :=
  let q := toLowerU s
  let mentionsDS := scanTest true
    [[RTok.lit (codeUnits ("data")), RTok.wsStar, RTok.lit (codeUnits ("science"))],
     [RTok.lit (codeUnits ("data")), RTok.wsStar, RTok.lit (codeUnits ("theory"))],
     [RTok.lit (codeUnits ("ds"))]] true q
  let mentionsUC := scanTest true
    [[RTok.lit (codeUnits ("uc"))], [RTok.lit (codeUnits ("ucla"))],
     [RTok.lit (codeUnits ("ucsd"))], [RTok.lit (codeUnits ("ucsb"))],
     [RTok.lit (codeUnits ("uci"))], [RTok.lit (codeUnits ("ucd"))],
     [RTok.lit (codeUnits ("ucsc"))], [RTok.lit (codeUnits ("ucr"))],
     [RTok.lit (codeUnits ("ucm"))], [RTok.lit (codeUnits ("berkeley"))],
     [RTok.lit (codeUnits ("irvine"))], [RTok.lit (codeUnits ("davis"))],
     [RTok.lit (codeUnits ("riverside"))], [RTok.lit (codeUnits ("merced"))],
     [RTok.lit (codeUnits ("santa")), RTok.wsStar, RTok.lit (codeUnits ("barbara"))],
     [RTok.lit (codeUnits ("santa")), RTok.wsStar, RTok.lit (codeUnits ("cruz"))],
     [RTok.lit (codeUnits ("san")), RTok.wsStar, RTok.lit (codeUnits ("diego"))]] true q
  let asksReqs := scanTest true
    [[RTok.lit (codeUnits ("requirement"))], [RTok.lit (codeUnits ("requirements"))],
     [RTok.lit (codeUnits ("prereq"))], [RTok.lit (codeUnits ("prereqs"))],
     [RTok.lit (codeUnits ("prerequisite"))], [RTok.lit (codeUnits ("prerequisites"))],
     [RTok.lit (codeUnits ("courses"))], [RTok.lit (codeUnits ("course list"))],
     [RTok.lit (codeUnits ("classes"))], [RTok.lit (codeUnits ("curriculum"))],
     [RTok.lit (codeUnits ("plan"))]] true q
  mentionsDS && (mentionsUC || asksReqs)

/-- `extractCampusHint(s)`: each source pattern `/\bA|B\b/` parses as
`(\bA)|(B\b)` — the boundary binds to one alternative only. -/
def extractCampusHint (s : List Nat) : Option (List Nat) :=
  let q := toLowerU s
  if scanTest true [[RTok.lit (codeUnits ("ucsd"))]] false q ||
      scanTest false [[RTok.lit (codeUnits ("san diego"))]] true q then
    some (codeUnits ("uc san diego"))
  else if scanTest true [[RTok.lit (codeUnits ("ucla"))]] false q ||
      scanTest false [[RTok.lit (codeUnits ("los angeles"))]] true q then
    some (codeUnits ("ucla"))
  else if scanTest true [[RTok.lit (codeUnits ("ucsb"))]] false q ||
      scanTest false [[RTok.lit (codeUnits ("santa barbara"))]] true q then
    some (codeUnits ("uc santa barbara"))
  else if scanTest true [[RTok.lit (codeUnits ("uci"))]] false q ||
      scanTest false [[RTok.lit (codeUnits ("irvine"))]] true q then
    some (codeUnits ("uc irvine"))
  else if scanTest true [[RTok.lit (codeUnits ("ucd"))]] false q ||
      scanTest false [[RTok.lit (codeUnits ("davis"))]] true q then
    some (codeUnits ("uc davis"))
  else if scanTest true [[RTok.lit (codeUnits ("ucsc"))]] false q ||
      scanTest false [[RTok.lit (codeUnits ("santa cruz"))]] true q then
    some (codeUnits ("uc santa cruz"))
  else if scanTest true [[RTok.lit (codeUnits ("ucr"))]] false q ||
      scanTest false [[RTok.lit (codeUnits ("riverside"))]] true q then
    some (codeUnits ("uc riverside"))
  else if scanTest true [[RTok.lit (codeUnits ("ucm"))]] false q ||
      scanTest false [[RTok.lit (codeUnits ("merced"))]] true q then
    some (codeUnits ("uc merced"))
  else if scanTest true [[RTok.lit (codeUnits ("berkeley"))]] false q ||
      scanTest false [[RTok.lit (codeUnits ("cal"))]] true q then
    some (codeUnits ("uc berkeley"))
  else none

/-- The campus-abbreviation synonym table of the major-matching block. -/
def majorSynonyms : List (List Nat × List Nat) :=
  [(codeUnits ("ucsd"), codeUnits ("uc san diego")),
   (codeUnits ("ucla"), codeUnits ("ucla")),
   (codeUnits ("ucsb"), codeUnits ("uc santa barbara")),
   (codeUnits ("uci"), codeUnits ("uc irvine")),
   (codeUnits ("ucd"), codeUnits ("uc davis")),
   (codeUnits ("ucsc"), codeUnits ("uc santa cruz")),
   (codeUnits ("ucr"), codeUnits ("uc riverside")),
   (codeUnits ("ucm"), codeUnits ("uc merced"))]

/-- Score of one major in the major-matching block (the
`campusHint.replace(/^uc /, "uc ")` of the source is the identity). -/
def majorScore (query : List Nat) (campusHint : Option (List Nat)) (m : Major) : ℚ :=
  let campusPart : ℚ :=
    match campusHint with
    | some ch =>
      (if isInfixU ch (toLowerU m.campus) then (10 : ℚ) else 0) +
      majorSynonyms.foldl
        (fun acc kv => if ch = kv.1 ∧ toLowerU m.campus = kv.2 then acc + 10 else acc) (0 : ℚ)
    | none => 0
  let blob := toLowerU (joinSep [32]
    [m.program, joinSep [32] m.aliases, joinSep [32] m.lower_division,
     joinSep [32] m.upper_division])
  let dsPart : ℚ :=
    (if scanTest true
        [[RTok.lit (codeUnits ("data")), RTok.wsStar, RTok.lit (codeUnits ("science"))]]
        true blob then (4 : ℚ) else 0) +
    (if scanTest true
        [[RTok.lit (codeUnits ("data")), RTok.wsStar, RTok.lit (codeUnits ("theory"))]]
        true blob then (2 : ℚ) else 0)
  let ws := (splitRuns (fun c => ¬ isWordCode c) (toLowerU query)).filter (fun w => ¬ w = [])
  let overlap := ws.foldl (fun acc w => if isInfixU w blob then acc + (3/10 : ℚ) else acc) (0 : ℚ)
  campusPart + dsPart + overlap

/-- The major-requirements matching block; `none` means fall through. -/
def majorStage (kb : KB) (query : List Nat) : Option (List Hit) :=
  if isMajorReqQuery query = true ∧ ¬ kb.majors.isEmpty = true then
    let campusHint := extractCampusHint query
    let mh := kb.majors.filterMap (fun m =>
      let sc := majorScore query campusHint m
      if 0 < sc then some { type := HitType.major, score := sc, data := HitData.major m }
      else none)
    if mh.isEmpty = true then none else some ((mh.insertionSort scoreLe).take 3)
  else none

/-- The stop-word list of `normSchool`, in source alternation order. -/
def schoolStopWords : List (List Nat) :=
  [codeUnits ("community"), codeUnits ("college"), codeUnits ("university"),
   codeUnits ("dept"), codeUnits ("department"), codeUnits ("&"), codeUnits ("at")]

/-- One attempt of the word-boundary stop-word alternation at the head of
`l` (generic `\b` semantics: a boundary needs exactly one word-character
side). -/
def tryWordAt (ws : List (List Nat)) (prev : Option Nat) (l : List Nat) :
    Option (List Nat × List Nat) :=
  ws.findSome? (fun w =>
    match w with
    | [] => none
    | w0 :: _ =>
      let boundL : Bool :=
        match prev with
        | none => isWordCode w0
        | some p => isWordCode p != isWordCode w0
      if boundL && isPrefixU w l then
        let rest := l.drop w.length
        match w.getLast? with
        | none => none
        | some cw =>
          let boundR : Bool :=
            match rest with
            | [] => isWordCode cw
            | c :: _ => isWordCode cw != isWordCode c
          if boundR = true then some (w, rest) else none
      else none)

/-- Fuel-driven global scan of the stop-word replace of `normSchool`. -/
def replaceWordsGo (ws : List (List Nat)) : Nat → Option Nat → List Nat → List Nat
  | 0, _, _ => []
  | _ + 1, _, [] => []
  | fuel + 1, prev, c :: rest =>
    match tryWordAt ws prev (c :: rest) with
    | some (w, after) => 32 :: replaceWordsGo ws fuel w.getLast? after
    | none => c :: replaceWordsGo ws fuel (some c) rest

/-- Global `\b(stop words)\b` replace by a single space. -/
def replaceWords (ws : List (List Nat)) (l : List Nat) : List Nat :=
  replaceWordsGo ws (l.length + 1) none l

/-- `normSchool(s)`. -/
def normSchool (s : List Nat) : List Nat :=
  trimU (collapseRuns isWsCode
    (collapseRuns (fun c => ¬ (isLowerAlnum c || c = 32))
      (replaceWords schoolStopWords (toLowerU s))))

/-- `looksLikeSameSchool(a, b)`. -/
def looksLikeSameSchool (a b : List Nat) : Bool :=
  let na := normSchool a
  let nb := normSchool b
  ¬ na.isEmpty && (¬ nb.isEmpty && (isInfixU nb na || isInfixU na nb))

/-- First pattern of `extractNameSchoolFromTitle`:
`/^(.+?)\s+at\s+(.+?)\s+\|\s+Rate My Professors$/i`, with lazy groups
resolved by smallest-split search on the lowercased title and captures
sliced from the original. -/
def tryTitleP1 (t : List Nat) : Option (List Nat × List Nat) :=
  let lower := toLowerU t
  (List.range t.length).findSome? (fun i0 =>
    let i := i0 + 1
    match matchToks
        [RTok.wsPlus, RTok.lit (codeUnits ("at")), RTok.wsPlus] (lower.drop i) with
    | none => none
    | some rest2 =>
      (List.range rest2.length).findSome? (fun j0 =>
        let j := j0 + 1
        if matchToks
            [RTok.wsPlus, RTok.lit (codeUnits ("|")), RTok.wsPlus,
             RTok.lit (codeUnits ("rate my professors"))] (rest2.drop j) = some [] then
          some (trimU (t.take i), trimU ((t.drop (t.length - rest2.length)).take j))
        else none))

/-- Second pattern: `/^Professor Ratings?:\s*(.+?)\s*[–-]\s*(.+)$/i`
(the optional `s` is tried greedily first). -/
def tryTitleP2 (t : List Nat) : Option (List Nat × List Nat) :=
  let lower := toLowerU t
  let attempt := fun (pfx : List Nat) =>
    if isPrefixU pfx lower = true then
      let wsLen := ((lower.drop pfx.length).takeWhile isWsCode).length
      let start := pfx.length + wsLen
      (List.range (t.length - start)).findSome? (fun i0 =>
        let i := i0 + 1
        let rest := lower.drop (start + i)
        let afterDash :=
          match matchToks [RTok.wsStar, RTok.lit [8211], RTok.wsStar] rest with
          | some r => some r
          | none => matchToks [RTok.wsStar, RTok.lit [45], RTok.wsStar] rest
        match afterDash with
        | some rest2 =>
          if rest2.isEmpty then none
          else some (trimU ((t.drop start).take i), trimU (t.drop (t.length - rest2.length)))
        | none => none)
    else none
  match attempt (codeUnits ("professor ratings:")) with
  | some r => some r
  | none => attempt (codeUnits ("professor rating:"))

/-- Third pattern: `/^(.+?)\s*[–-]\s*(.+?)\s*\|\s*Rate My Professors$/i`. -/
def tryTitleP3 (t : List Nat) : Option (List Nat × List Nat) :=
  let lower := toLowerU t
  (List.range t.length).findSome? (fun i0 =>
    let i := i0 + 1
    let rest := lower.drop i
    let afterDash :=
      match matchToks [RTok.wsStar, RTok.lit [8211], RTok.wsStar] rest with
      | some r => some r
      | none => matchToks [RTok.wsStar, RTok.lit [45], RTok.wsStar] rest
    match afterDash with
    | none => none
    | some rest2 =>
      (List.range rest2.length).findSome? (fun j0 =>
        let j := j0 + 1
        if matchToks
            [RTok.wsStar, RTok.lit (codeUnits ("|")), RTok.wsStar,
             RTok.lit (codeUnits ("rate my professors"))] (rest2.drop j) = some [] then
          some (trimU (t.take i), trimU ((t.drop (t.length - rest2.length)).take j))
        else none))

/-- `extractNameSchoolFromTitle(title)`: try the three patterns in order. -/
def extractNameSchoolFromTitle (title : List Nat) : Option (List Nat × List Nat) :=
  if title.isEmpty = true then none
  else
    match tryTitleP1 title with
    | some r => some r
    | none =>
      match tryTitleP2 title with
      | some r => some r
      | none => tryTitleP3 title

/-- `[A-Z][a-z]+` at the head of `l`. -/
def capWordAt (l : List Nat) : Option (List Nat × List Nat) :=
  match l with
  | [] => none
  | c :: rest =>
    if isUpperAZ c = true then
      let lows := rest.takeWhile (fun x => isLowerAZ x)
      if lows.isEmpty = true then none
      else some (c :: lows, rest.drop lows.length)
    else none

/-- Greedy repetitions of `(?:\s+[A-Z][a-z]+)` — consumed text and rest. -/
def capMore : Nat → List Nat → List Nat × List Nat
  | 0, l => ([], l)
  | fuel + 1, l =>
    let wsRun := l.takeWhile isWsCode
    if wsRun.isEmpty = true then ([], l)
    else
      match capWordAt (l.drop wsRun.length) with
      | some (w, rest) =>
        let p := capMore fuel rest
        (wsRun ++ w ++ p.1, p.2)
      | none => ([], l)

/-- One attempt of the naive name regex `([A-Z][a-z]+(?:\s+[A-Z][a-z]+)+)`
at the head of `l`. -/
def capSeqAt (l : List Nat) : Option (List Nat × List Nat) :=
  match capWordAt l with
  | some (w, rest) =>
    let p := capMore rest.length rest
    if p.1.isEmpty = true then none else some (w ++ p.1, p.2)
  | none => none

/-- Fuel-driven global scan of the naive name regex. -/
def nameLikeGo : Nat → List Nat → List (List Nat)
  | 0, _ => []
  | _ + 1, [] => []
  | fuel + 1, c :: rest =>
    match capSeqAt (c :: rest) with
    | some (m, after) => m :: nameLikeGo fuel after
    | none => nameLikeGo fuel rest

/-- All matches of the naive "Firstname Lastname" regex over a title. -/
def nameLikeMatches (l : List Nat) : List (List Nat) :=
  nameLikeGo (l.length + 1) l

/-- Host extraction from the school website
(`.replace(/^https?:\/\//, "").replace(/\/.*$/, "") || "deanza.edu"`). -/
def schoolHostOf (kb : KB) : List Nat :=
  let w := kb.schoolWebsite
  let w1 :=
    if isPrefixU (codeUnits ("https://")) w = true then w.drop 8
    else if isPrefixU (codeUnits ("http://")) w = true then w.drop 7
    else w
  let w2 := w1.takeWhile (fun c => ¬ c = 47)
  if w2.isEmpty = true then codeUnits ("deanza.edu") else w2

/-- The site-qualified query string handed to the search API. -/
def webQueryOf (site : Option (List Nat)) (q : List Nat) : List Nat :=
  match site with
  | some s => codeUnits ("site:") ++ s ++ [32] ++ q
  | none => q

/-- `webSearch(q, {site, num})`: empty list without credentials or on a
non-success status; a rejected `fetch` or an unparseable body throws
(`Except.error`); a parsed body without an `items` array yields `[]`. -/
def webSearch (o : Oracle) (q : List Nat) (site : Option (List Nat)) (_num : Nat) :
    Except Unit (List WebItem) :=
  if o.creds = false then Except.ok []
  else
    match o.fetch (webQueryOf site q) with
    | FetchOutcome.netError => Except.error ()
    | FetchOutcome.httpError _ => Except.ok []
    | FetchOutcome.okMalformed => Except.error ()
    | FetchOutcome.okJson items => Except.ok (items.getD [])

/-- A web-fallback candidate name. -/
structure WebCand where
  name : List Nat
  rmp : Bool
  url : Option (List Nat)
deriving DecidableEq

/-- Deduplicate candidates by lowercased name, first occurrence wins. -/
def dedupCands (seen : List (List Nat)) : List WebCand → List WebCand
  | [] => []
  | c :: rest =>
    let k := toLowerU c.name
    if seen.contains k = true then dedupCands seen rest
    else c :: dedupCands (k :: seen) rest

/-- Decimal rendering of a number interpolated into a JS template. -/
def natUnits (n : Nat) : List Nat := codeUnits (Nat.repr n)

/-- Candidate extraction and hit synthesis of the web fallback, run on
the collected search results; `none` means fall through to the final
return. -/
def webCollect (rmpResults schoolResults : List WebItem) (school course : List Nat)
    (hits : List Hit) : Option (List Hit) :=
  let candidates : List WebCand :=
    rmpResults.filterMap (fun it =>
      match extractNameSchoolFromTitle (it.title.getD []) with
      | some ns =>
        if looksLikeSameSchool ns.2 school = true then
          some { name := ns.1, rmp := true, url := it.link }
        else none
      | none => none) ++
    schoolResults.flatMap (fun it =>
      (nameLikeMatches (it.title.getD [])).filterMap (fun m =>
        let n := trimU m
        if n.contains 32 = true then some { name := n, rmp := false, url := it.link }
        else none))
  let unique := dedupCands [] candidates
  if ¬ unique.isEmpty = true then
    let newHits := (unique.take 3).map (fun c =>
      ({ type := HitType.ranking, score := if c.rmp then (92 : ℚ) else 85,
         data := HitData.ranking
           { course := if course.isEmpty then codeUnits ("(unknown course)") else course,
             tags := [codeUnits ("web_result")], rank := none,
             prof :=
               { name := c.name, department := codeUnits ("(unknown)"), rating := none,
                 num_ratings := none, rmp_url := if c.rmp then c.url else none,
                 courses := if course.isEmpty then [] else [course],
                 review_or_notes := none } } } : Hit))
    some ((hits ++ newHits).take 3)
  else
    let topLinks := (rmpResults ++ schoolResults).take 5
    if ¬ topLinks.isEmpty = true then
      let card : Hit :=
        { type := HitType.faq, score := 80,
          data := HitData.faq
            { q := codeUnits ("Web results for ") ++
                (if course.isEmpty then codeUnits ("the course") else course),
              a := joinSep (codeUnits ("\n")) (topLinks.enum.map (fun p =>
                natUnits (p.1 + 1) ++ codeUnits (". ") ++
                (p.2.title.getD (codeUnits ("undefined"))) ++ codeUnits ("\n   ") ++
                (p.2.link.getD (codeUnits ("undefined"))) ++ codeUnits ("\n   ") ++
                p.2.snippet)),
              keywords := [] } }
      some ((hits ++ [card]).take 3)
    else none

/-- The web-fallback stage of `searchLocalKB`: `.error` models a thrown
exception, `.ok none` a fall-through to the final return, `.ok (some h)`
an early return. -/
def webStage (o : Oracle) (kb : KB) (query : List Nat) (codes : List (List Nat))
    (hits : List Hit) : Except Unit (Option (List Hit)) :=
  let needProfButEmpty := hits.isEmpty = true ∨
    ¬ (hits.any (fun h => h.type = HitType.ranking ∨ h.type = HitType.professor)) = true
  let rankQuery := scanTest false
    [[RTok.lit (codeUnits ("best")), RTok.wsPlus, RTok.lit (codeUnits ("prof"))],
     [RTok.lit (codeUnits ("best")), RTok.wsPlus, RTok.lit (codeUnits ("professor"))],
     [RTok.lit (codeUnits ("top")), RTok.wsPlus, RTok.lit (codeUnits ("prof"))],
     [RTok.lit (codeUnits ("top")), RTok.wsPlus, RTok.lit (codeUnits ("professor"))],
     [RTok.lit (codeUnits ("easiest")), RTok.wsPlus, RTok.lit (codeUnits ("prof"))],
     [RTok.lit (codeUnits ("easiest")), RTok.wsPlus, RTok.lit (codeUnits ("professor"))]]
    false (toLowerU query)
  if needProfButEmpty ∧ rankQuery = true then
    let course := trimU (codes.headD [])
    let school := kb.schoolName
    let qWeb := joinSep [32] (([course, school]).filter (fun x => ¬ x = []))
    let host := schoolHostOf kb
    match webSearch o (qWeb ++ codeUnits (" Rate My Professors"))
        (some (codeUnits ("ratemyprofessors.com"))) 10 with
    | Except.error e => Except.error e
    | Except.ok rmpResults =>
      match webSearch o (qWeb ++ codeUnits (" instructor")) (some host) 5 with
      | Except.error e => Except.error e
      | Except.ok b1 =>
        match webSearch o (qWeb ++ codeUnits (" syllabus")) (some host) 5 with
        | Except.error e => Except.error e
        | Except.ok b2 =>
          match webSearch o (qWeb ++ codeUnits (" schedule")) (some host) 5 with
          | Except.error e => Except.error e
          | Except.ok b3 =>
            match webSearch o (qWeb ++ codeUnits (" department")) (some host) 5 with
            | Except.error e => Except.error e
            | Except.ok b4 =>
              Except.ok (webCollect rmpResults (b1 ++ b2 ++ b3 ++ b4) school course hits)
  else Except.ok none

/-- `mentioned`: professor full names occurring in the lowercased query. -/
def mentionedNames (kb : KB) (qNorm : List Nat) : List (List Nat) :=
  (kb.professors.map (fun p => p.name)).filter (fun n => isInfixU (toLowerU n) qNorm)

/-- `exactMatches` of the professor-mention path. -/
def exactMentionProfs (kb : KB) (qNorm : List Nat) : List Professor :=
  kb.professors.filter (fun p =>
    (mentionedNames kb qNorm).any (fun m => toLowerU p.name = toLowerU m))

/-- `profMatches` of the last-name fallback path. -/
def lastNameProfs (kb : KB) (qNorm : List Nat) : List Professor :=
  let qWords := splitRuns isWsCode qNorm
  kb.professors.filter (fun p =>
    match (splitRuns isWsCode (toLowerU p.name)).getLast? with
    | some lastWord => qWords.contains lastWord
    | none => false)

/-- The ranking-lookup stage: hits (when any ranked professor was chosen)
and the updated session (`lastCourse`/`rankCursor` are set even when the
stage falls through). -/
def rankingStage (kb : KB) (s : Session) (query : List Nat)
    (codes : List (List Nat)) : Option (List Hit) × Session :=
  if (parseRankIntent query).asked = true then
    match codes with
    | [] => (none, s)
    | code :: _ =>
      let s2 : Session :=
        { s with lastCourse := some code, rankCursor := setAssoc code 0 s.rankCursor }
      match rankChosen kb query code with
      | [] => (none, s2)
      | c0 :: rest =>
        let s3 := if c0.name.isEmpty then s2 else { s2 with lastProfessor := some c0.name }
        (some ((((c0 :: rest).map (mkRankingHit kb code)) ++ rankingCourseHits kb code).take 3),
          s3)
  else (none, s)

/-- `searchLocalKB` after the two professor-mention paths. -/
def searchRest (o : Oracle) (kb : KB) (s : Session) (query : List Nat)
    (codes : List (List Nat)) : Except Unit (List Hit × Session) :=
  match rankingStage kb s query codes with
  | (some hits, s1) => Except.ok (hits, s1)
  | (none, s1) =>
    if ¬ o.embIndex.isEmpty = true ∧ o.embOk = true ∧ ¬ (semanticHits o).isEmpty = true then
      Except.ok (semanticHits o, s1)
    else
      let khits := keywordHits kb query codes (extractDeptHint query)
      let asked2 := askedBestProf query codes
      let sorted := khits.insertionSort (hitLe (asked2 = true))
      match (if asked2 = true then hardFilter codes sorted else none) with
      | some out => Except.ok (out, s1)
      | none =>
        match majorStage kb query with
        | some mh => Except.ok (mh, s1)
        | none =>
          match webStage o kb query codes sorted with
          | Except.error e => Except.error e
          | Except.ok (some whits) => Except.ok (whits, s1)
          | Except.ok none => Except.ok (sorted.take 3, s1)

/-- The full `searchLocalKB(query)` (network collaborators as `o`,
`SCHOOL_DB` as `kb`, `SESSION` threaded explicitly). -/
def searchLocalKB (o : Oracle) (kb : KB) (s : Session) (query : List Nat) :
    Except Unit (List Hit × Session) :=
  let codes := resolvedCodes kb query
  let qNorm := toLowerU query
  if ¬ (mentionedNames kb qNorm).isEmpty = true then
    match exactMentionProfs kb qNorm with
    | p0 :: ps =>
      Except.ok ((p0 :: ps).map
        (fun p => { type := HitType.professor, score := 100, data := HitData.professor p }),
        { s with lastProfessor := some p0.name })
    | [] => searchRest o kb s query codes
  else
    match lastNameProfs kb qNorm with
    | p0 :: ps =>
      Except.ok ((p0 :: ps).map
        (fun p => { type := HitType.professor, score := 90, data := HitData.professor p }),
        { s with lastProfessor := some p0.name })
    | [] => searchRest o kb s query codes

/-- `formatHit(hit)`: the display template per hit type (the type tag and
payload shape always agree for hits built by this pipeline; a mismatched
pair renders as the final empty-string fallback). -/
def formatHit (hit : Hit) : List Nat :=
  match hit.type, hit.data with
  | HitType.deadline, HitData.deadline d =>
    codeUnits ("🗓️ ") ++ d.term ++ codeUnits (" — ") ++ d.category ++
    codeUnits ("\n• ") ++ d.description ++ codeUnits ("\n• Date: ") ++ d.date ++
    (match d.time with | some t => [32] ++ t | none => []) ++
    (match d.notes with | some n => codeUnits ("\n• Notes: ") ++ n | none => [])
  | HitType.professor, HitData.professor p =>
    let rmp := match p.rmp_url with | some u => codeUnits ("\n• RMP: ") ++ u | none => []
    let teaches :=
      if p.courses.isEmpty then []
      else codeUnits ("\n• Teaches: ") ++ joinSep (codeUnits (", ")) p.courses
    codeUnits ("👩‍🏫 ") ++ p.name ++ codeUnits (" — ") ++
    p.department.getD (codeUnits ("undefined")) ++ codeUnits ("\n• Rating: ") ++
    p.rating.getD (codeUnits ("N/A")) ++
    (match p.num_ratings with
     | some n => codeUnits (" (") ++ n ++ codeUnits (" ratings)")
     | none => []) ++ teaches ++ rmp
  | HitType.course, HitData.course c =>
    codeUnits ("📘 ") ++ c.code ++ codeUnits (": ") ++ c.title ++
    codeUnits ("\n• Dept: ") ++ c.department ++
    (match c.description with | some x => codeUnits ("\n• About: ") ++ x | none => []) ++
    (match c.notes with | some x => codeUnits ("\n• Notes: ") ++ x | none => [])
  | HitType.faq, HitData.faq f =>
    codeUnits ("❓ ") ++ f.q ++ codeUnits ("\n✅ ") ++ f.a
  | HitType.ranking, HitData.ranking r =>
    let p := r.prof
    let tagJoin := joinSep (codeUnits (", ")) r.tags
    let tagLabel := if tagJoin.isEmpty then codeUnits ("ranked") else tagJoin
    let rmp := match p.rmp_url with | some u => codeUnits ("\n• RMP: ") ++ u | none => []
    let rating :=
      match p.rating with
      | some rt =>
        codeUnits ("• Rating: ") ++ rt ++
        (match p.num_ratings with
         | some n => codeUnits (" (") ++ n ++ codeUnits (" ratings)")
         | none => []) ++ codeUnits ("\n")
      | none => []
    let teaches :=
      if p.courses.isEmpty then []
      else codeUnits ("• Teaches: ") ++ joinSep (codeUnits (", ")) p.courses ++ codeUnits ("\n")
    let notes :=
      match p.review_or_notes with
      | some n => codeUnits ("• Notes: ") ++ n ++ codeUnits ("\n")
      | none => []
    let rankline :=
      match r.rank with
      | some n => codeUnits ("#") ++ natUnits n ++ [32]
      | none => []
    trimU (codeUnits ("🏆 ") ++ rankline ++ p.name ++ codeUnits (" — ") ++ p.department ++
      codeUnits ("\n• Course: ") ++ r.course ++ codeUnits ("\n• Tag: ") ++ tagLabel ++
      codeUnits ("\n") ++ rating ++ teaches ++ notes ++ rmp)
  | HitType.major, HitData.major m =>
    let lower := joinSep (codeUnits ("\n")) (m.lower_division.map (fun x => codeUnits ("• ") ++ x))
    let upper := joinSep (codeUnits ("\n")) (m.upper_division.map (fun x => codeUnits ("• ") ++ x))
    let link := match m.source_url with | some u => codeUnits ("\n🔗 Source: ") ++ u | none => []
    let notes := match m.notes with | some n => codeUnits ("\n📝 Notes: ") ++ n | none => []
    codeUnits ("🎓 ") ++ m.campus ++ codeUnits (" — ") ++ m.program ++
    codeUnits ("\n  \n  **Lower Division (community college prep — articulates to UC upper-division):**\n  ") ++
    (if lower.isEmpty then codeUnits ("—") else lower) ++
    codeUnits ("\n  \n  **Upper Division (completed at ") ++ m.campus ++
    codeUnits (" after transfer):**\n  ") ++
    (if upper.isEmpty then codeUnits ("—") else upper) ++ notes ++ link
  | _, _ => []

/-- Intents produced by `detectIntent`.  The chat-handler model below
takes the detected intent as an input. -/
inductive Intent where
  | major_requirements
  | prof_ranking
  | prof_lookup
  | class_full
  | tutoring
  | deadline
  | generic
deriving DecidableEq

/-- `allowByIntent` of the chat handler. -/
def allowedTypes : Intent → List HitType
  | Intent.prof_ranking => [HitType.ranking, HitType.professor, HitType.course]
  | Intent.prof_lookup => [HitType.professor, HitType.course]
  | Intent.class_full => [HitType.ranking, HitType.faq, HitType.deadline]
  | Intent.tutoring => [HitType.faq, HitType.course, HitType.deadline]
  | Intent.deadline => [HitType.deadline, HitType.faq]
  | Intent.major_requirements => [HitType.major, HitType.faq, HitType.course]
  | Intent.generic => [HitType.professor, HitType.course, HitType.faq]

/-- Intent filtering with the FAQ re-admission for `prof_ranking`. -/
def filterByIntent (intent : Intent) (hits : List Hit) : List Hit :=
  let allowed := allowedTypes intent
  let filtered := hits.filter (fun h => allowed.contains h.type)
  if intent = Intent.prof_ranking ∧
      ¬ (filtered.any (fun h => h.type = HitType.professor ∨ h.type = HitType.ranking)) = true then
    hits.filter (fun h => allowed.contains h.type || h.type == HitType.faq)
  else filtered

/-- `addDrop` of the exhaustion reply: the date of the first deadline
whose category matches `/add/i`, else a generic phrase. -/
def addDropDate (kb : KB) : List Nat :=
  match kb.deadlines.find? (fun d => isInfixU (codeUnits ("add")) (toLowerU d.category)) with
  | some d => if d.date.isEmpty then codeUnits ("the add deadline") else d.date
  | none => codeUnits ("the add deadline")

/-- Tail of the deterministic next-best reply (everything after the
professor's name in the template). -/
def serveReplyTail (kb : KB) (nb : RankEntry) : List Nat :=
  let prof := kb.professors.find? (fun p => toLowerU p.name = toLowerU nb.name)
  let ratingStr :=
    match prof.bind (fun p => p.rating) with
    | some r =>
      codeUnits (" (rating ") ++ r ++
      (match prof.bind (fun p => p.num_ratings) with
       | some n => codeUnits (", ") ++ n ++ codeUnits (" ratings")
       | none => []) ++ codeUnits (")")
    | none => []
  let rmpStr :=
    match prof.bind (fun p => p.rmp_url) with
    | some u => codeUnits ("\n• RMP: ") ++ u
    | none => []
  let notes := nb.notes <|> prof.bind (fun p => p.reviews)
  codeUnits ("** — ") ++ (prof.bind (fun p => p.department)).getD (codeUnits ("(dept)")) ++
  ratingStr ++ codeUnits (".") ++
  (match notes with | some n => codeUnits ("\n• Notes: ") ++ n | none => []) ++ rmpStr ++
  codeUnits ("\n\nIf the class is full: join the waitlist (if offered), email the instructor for an add code, and check the add/drop deadline.")

/-- The deterministic reply naming the next-best professor. -/
def serveReply (kb : KB) (course : List Nat) (nb : RankEntry) : List Nat :=
  codeUnits ("Next best for ") ++ course ++ codeUnits (" is **") ++ nb.name ++
  serveReplyTail kb nb

/-- The deterministic exhaustion reply. -/
def exhaustReply (kb : KB) (course : List Nat) : List Nat :=
  codeUnits ("I’ve listed everyone I have for ") ++ course ++
  codeUnits (". At this point: join the waitlist (if offered), email the instructor for an add code, and check ") ++
  addDropDate kb ++ codeUnits (".")

/-- The resume index of the handoff block: position of `lastProfessor` in
the sorted list plus one when found, else cursor plus one. -/
def handoffNextIndex (list : List RankEntry) (s : Session) (course : List Nat) : Nat :=
  let current := (s.rankCursor.lookup course).getD 0
  match s.lastProfessor with
  | some lp =>
    match list.findIdx? (fun r => toLowerU r.name = toLowerU lp) with
    | some idx => idx + 1
    | none => current + 1
  | none => current + 1

/-- Outcome of the deterministic handoff block. -/
inductive HandoffOut where
  | serve (idx : Nat) (e : RankEntry) (reply : List Nat)
  | exhausted (reply : List Nat)
deriving DecidableEq

/-- The NEXT-BEST HANDOFF block of the chat handler (`none` when the
course has no ranking list, in which case the handler falls through). -/
def handoffBlock (kb : KB) (course : List Nat) (s : Session) :
    Option (HandoffOut × Session) :=
  let list := sortedRankingH kb course
  if list.isEmpty = true then none
  else
    let nextIndex := handoffNextIndex list s course
    match list[nextIndex]? with
    | none => some (HandoffOut.exhausted (exhaustReply kb course), s)
    | some nb =>
      some (HandoffOut.serve nextIndex nb (serveReply kb course nb),
        { s with rankCursor := setAssoc course nextIndex s.rankCursor,
                 lastProfessor := some nb.name })

/-- Candidate selection of the secondary second-best injection block. -/
def injectionNextBest (list : List RankEntry) (s : Session) : Option RankEntry :=
  let fromLast : Option RankEntry :=
    match s.lastProfessor with
    | some lp =>
      match list.findIdx? (fun r => toLowerU r.name = toLowerU lp) with
      | some idx => list[idx + 1]?
      | none => none
    | none => none
  match fromLast with
  | some nb => some nb
  | none =>
    match list.find? (fun r => r.tags.contains (codeUnits ("second_best"))) with
    | some nb => some nb
    | none =>
      match list.find? (fun r => r.rank = some 2) with
      | some nb => some nb
      | none => list[1]?

/-- The secondary second-best injection block (prepends a synthetic
ranking hit and updates `lastProfessor` when a fresh candidate exists). -/
def injectionBlock (kb : KB) (course : List Nat) (s : Session)
    (filteredHits : List Hit) : List Hit × Session :=
  let list := sortedRankingH kb course
  match injectionNextBest list s with
  | none => (filteredHits, s)
  | some nb =>
    let alreadyHas := filteredHits.any (fun h =>
      h.type == HitType.ranking &&
      (match h.data with
       | HitData.ranking r => toLowerU r.prof.name == toLowerU nb.name
       | _ => false))
    if alreadyHas = true then (filteredHits, s)
    else
      let prof := kb.professors.find? (fun p => toLowerU p.name = toLowerU nb.name)
      let merged : MergedProf :=
        { name := nb.name,
          department := (prof.bind (fun p => p.department)).getD (codeUnits ("(dept)")),
          rating := prof.bind (fun p => p.rating),
          num_ratings := prof.bind (fun p => p.num_ratings),
          rmp_url := prof.bind (fun p => p.rmp_url),
          courses := match prof with | some p => p.courses | none => [course],
          review_or_notes := nb.notes <|> prof.bind (fun p => p.reviews) }
      let hit : Hit :=
        { type := HitType.ranking, score := 96,
          data := HitData.ranking
            { course := course,
              tags := if nb.tags.isEmpty then [codeUnits ("second_best")] else nb.tags,
              rank := match nb.rank with | some 0 => some 2 | none => some 2 | some n => some n,
              prof := merged } }
      (hit :: filteredHits, { s with lastProfessor := some nb.name })

/-- Display name of a hit type in snippet headers. -/
def typeName (t : HitType) : List Nat :=
  match t with
  | HitType.deadline => codeUnits ("deadline")
  | HitType.professor => codeUnits ("professor")
  | HitType.course => codeUnits ("course")
  | HitType.faq => codeUnits ("faq")
  | HitType.major => codeUnits ("major")
  | HitType.ranking => codeUnits ("ranking")

/-- The 600-character truncation with ellipsis marker. -/
def snippetBody (txt : List Nat) : List Nat :=
  if 600 < txt.length then txt.take 600 ++ codeUnits ("...") else txt

/-- One numbered context snippet. -/
def snippetOf (i : Nat) (h : Hit) : List Nat :=
  codeUnits ("Snippet ") ++ natUnits (i + 1) ++ codeUnits (" [") ++ typeName h.type ++
  codeUnits ("]:\n") ++ snippetBody (formatHit h)

/-- `usedHits = filteredHits.slice(0, maxSnippets)` with `maxSnippets = 5`. -/
def usedHitsOf (filteredHits : List Hit) : List Hit := filteredHits.take 5

/-- The joined context block sent to the completion collaborator. -/
def contextSnippets (filteredHits : List Hit) : List Nat :=
  joinSep (codeUnits ("\n\n")) ((usedHitsOf filteredHits).enum.map (fun p => snippetOf p.1 p.2))

/-- Outcome of one chat-handler run after retrieval: a deterministic
reply returned without calling the completion collaborator, or the
context handed to it. -/
inductive HandlerOut where
  | det (reply : List Nat) (s : Session)
  | llm (context : List Nat) (s : Session)
deriving DecidableEq

/-- The chat handler after `searchLocalKB` and `detectIntent`: intent
filtering, the deterministic handoff short-circuit, the injection block,
and context assembly. -/
def chatPipeline (kb : KB) (s : Session) (intent : Intent) (hits : List Hit) : HandlerOut :=
  let filteredHits := filterByIntent intent hits
  match intent, s.lastCourse with
  | Intent.class_full, some course =>
    (match handoffBlock kb course s with
     | some (out, s2) =>
       HandlerOut.det
         (match out with
          | HandoffOut.serve _ _ r => r
          | HandoffOut.exhausted r => r) s2
     | none =>
       let p := injectionBlock kb course s filteredHits
       HandlerOut.llm (contextSnippets p.1) p.2)
  | _, _ => HandlerOut.llm (contextSnippets filteredHits) s

/-- One full chat turn: retrieval (which may mutate the session), then
the handler pipeline. -/
def chatTurn (o : Oracle) (kb : KB) (intent : Intent) (s : Session) (msg : List Nat) :
    Except Unit HandlerOut :=
  match searchLocalKB o kb s msg with
  | Except.error e => Except.error e
  | Except.ok (hits, s1) => Except.ok (chatPipeline kb s1 intent hits)

section ProofDevelopment

attribute [local semireducible] Rat.add Rat.mul Rat.sub Rat.inv

/-- `Math.round` agrees with the mathematical half-up rounding `round`. -/
theorem jsRound_eq_round (q : ℚ) : jsRound q = round q := by
  rw [round_eq]
  exact rfl

/-! ### Properties of the canonicalizer (claim C8) -/

theorem isLowerAZ_iff (c : Nat) : isLowerAZ c = true ↔ 97 ≤ c ∧ c ≤ 122 := by
  simp [isLowerAZ]

theorem upperCode_idem (c : Nat) : upperCode (upperCode c) = upperCode c := by
  unfold upperCode
  by_cases h : isLowerAZ c = true
  · rw [if_pos h]
    have h1 := (isLowerAZ_iff c).mp h
    have h2 : isLowerAZ (c - 32) = false := by
      rw [Bool.eq_false_iff]
      intro hc
      have := (isLowerAZ_iff (c - 32)).mp hc
      omega
    rw [if_neg (by simp [h2])]
  · rw [if_neg h, if_neg h]

theorem upperCode_space : upperCode 32 = 32 := by decide

/-- The output of a `p`-run collapse: every `p`-char is the inserted
space and no two adjacent chars are both `p`-chars. -/
def CleanRun (p : Nat → Bool) (l : List Nat) : Prop :=
  (∀ c ∈ l, p c = true → c = 32) ∧
  l.Chain' (fun a b => ¬ (p a = true ∧ p b = true))

theorem collapseGo_head_false (p : Nat → Bool) (l : List Nat) :
    ∀ c r, collapseGo p true l = c :: r → p c = false := by
  induction l with
  | nil => intro c r h; simp [collapseGo] at h
  | cons d rest ih =>
    intro c r h
    by_cases hd : p d = true
    · rw [collapseGo, if_pos hd] at h
      exact ih c r h
    · rw [collapseGo, if_neg hd] at h
      cases h
      exact Bool.eq_false_iff.mpr hd

theorem mem_collapseGo (p : Nat → Bool) (l : List Nat) :
    ∀ b c, c ∈ collapseGo p b l → c = 32 ∨ (c ∈ l ∧ p c = false) := by
  induction l with
  | nil => intro b c h; simp [collapseGo] at h
  | cons d rest ih =>
    intro b c h
    by_cases hd : p d = true
    · cases b with
      | true =>
        rw [collapseGo, if_pos hd] at h
        rcases ih true c h with h1 | h1
        · exact Or.inl h1
        · exact Or.inr ⟨List.mem_cons_of_mem d h1.1, h1.2⟩
      | false =>
        rw [collapseGo, if_pos hd] at h
        rcases List.mem_cons.mp h with h1 | h1
        · exact Or.inl h1
        · rcases ih true c h1 with h2 | h2
          · exact Or.inl h2
          · exact Or.inr ⟨List.mem_cons_of_mem d h2.1, h2.2⟩
    · rw [collapseGo, if_neg hd] at h
      rcases List.mem_cons.mp h with h1 | h1
      · subst h1; exact Or.inr ⟨List.mem_cons_self _ _, Bool.eq_false_iff.mpr hd⟩
      · rcases ih false c h1 with h2 | h2
        · exact Or.inl h2
        · exact Or.inr ⟨List.mem_cons_of_mem d h2.1, h2.2⟩

theorem chain_collapseGo (p : Nat → Bool) (l : List Nat) :
    ∀ b, (collapseGo p b l).Chain' (fun a b2 => ¬ (p a = true ∧ p b2 = true)) := by
  induction l with
  | nil => intro b; simp [collapseGo]
  | cons d rest ih =>
    intro b
    by_cases hd : p d = true
    · cases b with
      | true => rw [collapseGo, if_pos hd]; exact ih true
      | false =>
        rw [collapseGo, if_pos hd, if_neg Bool.false_ne_true]
        rw [List.chain'_cons']
        refine ⟨?_, ih true⟩
        intro y hy
        intro hcontra
        cases hh : collapseGo p true rest with
        | nil => rw [hh] at hy; simp at hy
        | cons c r =>
          rw [hh] at hy; simp at hy
          subst hy
          have := collapseGo_head_false p rest c r hh
          rw [this] at hcontra
          exact Bool.false_ne_true hcontra.2
    · rw [collapseGo, if_neg hd]
      rw [List.chain'_cons']
      refine ⟨?_, ih false⟩
      intro y _ hcontra
      exact hd hcontra.1

theorem cleanRun_collapse (p : Nat → Bool) (l : List Nat) :
    CleanRun p (collapseRuns p l) := by
  constructor
  · intro c hc hp
    rcases mem_collapseGo p l false c hc with h | h
    · exact h
    · rw [h.2] at hp; exact absurd hp Bool.false_ne_true
  · exact chain_collapseGo p l false

theorem cleanRun_tail (p : Nat → Bool) (d : Nat) (rest : List Nat)
    (h : CleanRun p (d :: rest)) : CleanRun p rest :=
  ⟨fun c hc hp => h.1 c (List.mem_cons_of_mem d hc) hp, h.2.tail⟩

theorem collapseGo_eq_self (p : Nat → Bool) (l : List Nat) (h : CleanRun p l) :
    collapseGo p false l = l := by
  induction l with
  | nil => rfl
  | cons d rest ih =>
    have hrest := ih (cleanRun_tail p d rest h)
    by_cases hd : p d = true
    · have hd32 : d = 32 := h.1 d (List.mem_cons_self _ _) hd
      rw [collapseGo, if_pos hd]
      cases rest with
      | nil => rw [hd32]; rfl
      | cons e r =>
        have hne : p e = false := by
          rcases List.chain'_cons.mp h.2 with ⟨hrel, _⟩
          rcases Bool.eq_false_or_eq_true (p e) with he | he
          · exact absurd ⟨hd, he⟩ hrel
          · exact he
        have hne2 : ¬ p e = true := by simp [hne]
        simp only [collapseGo, if_pos hd, if_neg Bool.false_ne_true, if_neg hne2]
        simp only [collapseGo, if_neg hne2, List.cons.injEq, true_and] at hrest
        rw [hd32, hrest]
    · rw [collapseGo, if_neg hd, hrest]

theorem cleanRun_infix {p : Nat → Bool} {l1 l2 : List Nat}
    (h : CleanRun p l2) (hinf : l1 <:+: l2) : CleanRun p l1 :=
  ⟨fun c hc hp => h.1 c (hinf.subset hc) hp, List.Chain'.infix h.2 hinf⟩

theorem dropTrailing_prefixOf (p : Nat → Bool) (l : List Nat) :
    dropTrailing p l <+: l := by
  unfold dropTrailing
  have h := List.dropWhile_suffix (l := l.reverse) p
  have := List.reverse_prefix.mpr h
  rwa [List.reverse_reverse] at this

theorem trimU_infixOf (l : List Nat) : trimU l <:+: l := by
  unfold trimU
  exact (dropTrailing_prefixOf isWsCode (l.dropWhile isWsCode)).isInfix.trans
    (List.dropWhile_suffix isWsCode).isInfix

theorem head_dropWhile_not (p : Nat → Bool) (l : List Nat) :
    ∀ c r, l.dropWhile p = c :: r → p c = false := by
  induction l with
  | nil => intro c r h; simp [List.dropWhile] at h
  | cons d rest ih =>
    intro c r h
    by_cases hd : p d = true
    · rw [List.dropWhile_cons_of_pos hd] at h
      exact ih c r h
    · rw [List.dropWhile_cons_of_neg hd] at h
      cases h
      exact Bool.eq_false_iff.mpr hd

theorem dropWhile_eq_self_of_head (p : Nat → Bool) (l : List Nat)
    (h : ∀ c r, l = c :: r → p c = false) : l.dropWhile p = l := by
  cases l with
  | nil => rfl
  | cons c r => rw [List.dropWhile_cons_of_neg (by simp [h c r rfl])]

theorem trimU_eq_self (l : List Nat)
    (hh : ∀ c r, l = c :: r → isWsCode c = false)
    (hl : ∀ c r, l.reverse = c :: r → isWsCode c = false) : trimU l = l := by
  unfold trimU dropTrailing
  rw [dropWhile_eq_self_of_head isWsCode l hh,
    dropWhile_eq_self_of_head isWsCode l.reverse hl, List.reverse_reverse]

theorem trimU_head (l : List Nat) :
    ∀ c r, trimU l = c :: r → isWsCode c = false := by
  intro c r h
  have hpre : trimU l <+: l.dropWhile isWsCode := dropTrailing_prefixOf isWsCode _
  rcases hpre with ⟨t, ht⟩
  rw [h] at ht
  exact head_dropWhile_not isWsCode l c (r ++ t) ht.symm

theorem trimU_reverse (l : List Nat) :
    (trimU l).reverse = (l.dropWhile isWsCode).reverse.dropWhile isWsCode := by
  unfold trimU dropTrailing
  rw [List.reverse_reverse]

theorem trimU_last (l : List Nat) :
    ∀ c r, (trimU l).reverse = c :: r → isWsCode c = false := by
  intro c r h
  rw [trimU_reverse] at h
  exact head_dropWhile_not isWsCode _ c r h

theorem trimU_idem (l : List Nat) : trimU (trimU l) = trimU l :=
  trimU_eq_self (trimU l) (trimU_head l) (trimU_last l)

theorem toUpperU_eq_self {l : List Nat} (h : ∀ c ∈ l, upperCode c = c) :
    toUpperU l = l := by
  unfold toUpperU
  calc l.map upperCode = l.map id := List.map_congr_left h
  _ = l := List.map_id l

/-- C8.  The course-code canonicalizer is idempotent:
`canonCourse (canonCourse s) = canonCourse s` for every input string. -/
theorem canonCourse_idempotent (s : List Nat) :
    canonCourse (canonCourse s) = canonCourse s := by
  unfold canonCourse
  set u := toUpperU s with hu
  set x := collapseRuns isWsOrHyphen u with hx
  set z := trimU x with hz
  have hclean_x : CleanRun isWsOrHyphen x := cleanRun_collapse isWsOrHyphen u
  have hclean_z : CleanRun isWsOrHyphen z := cleanRun_infix hclean_x (trimU_infixOf x)
  have hupper : toUpperU z = z := by
    apply toUpperU_eq_self
    intro c hc
    have hcx : c ∈ x := (trimU_infixOf x).subset hc
    rcases mem_collapseGo isWsOrHyphen u false c hcx with h32 | hmem
    · rw [h32]; exact upperCode_space
    · rcases hmem with ⟨hcu, _⟩
      rw [hu] at hcu
      unfold toUpperU at hcu
      rcases List.mem_map.mp hcu with ⟨a, _, ha⟩
      rw [← ha]
      exact upperCode_idem a
  have hcollapse : collapseRuns isWsOrHyphen z = z := collapseGo_eq_self isWsOrHyphen z hclean_z
  rw [hupper, hcollapse, hz]
  exact trimU_idem x

/-! ### Properties of the professor dedup/merge block (claim C6) -/

/-- One step of the merge fold: first occurrence initializes the bucket,
later occurrences spread-merge over it with unioned course lists. -/
def mergeStep (cur : Option Professor) (p : Professor) : Professor :=
  match cur with
  | none => { p with courses := dedupKeepFirst p.courses }
  | some base => spreadMerge base p (dedupKeepFirst (base.courses ++ p.courses))

theorem profKey_mergeStep (cur : Option Professor) (p : Professor) :
    profKey (mergeStep cur p) = profKey p := by
  cases cur <;> rfl

theorem lookupConsIf {β : Type} (k k3 : List Nat) (v3 : β)
    (rest : List (List Nat × β)) :
    ((k3, v3) :: rest).lookup k = if k = k3 then some v3 else rest.lookup k := by
  rw [List.lookup_cons]
  by_cases h : k = k3
  · rw [if_pos h, beq_iff_eq.mpr h]
  · rw [if_neg h, beq_eq_false_iff_ne.mpr h]

theorem setAssoc_lookup {β : Type} (k k2 : List Nat) (v : β)
    (m : List (List Nat × β)) :
    (setAssoc k v m).lookup k2 = if k2 = k then some v else m.lookup k2 := by
  induction m with
  | nil => rw [setAssoc, lookupConsIf]
  | cons kv rest ih =>
    rcases kv with ⟨k3, v3⟩
    by_cases h3 : k3 = k
    · rw [setAssoc, if_pos h3, lookupConsIf, lookupConsIf]
      by_cases h2 : k2 = k
      · rw [if_pos h2, if_pos h2]
      · rw [if_neg h2, if_neg h2, if_neg (h3 ▸ h2)]
    · rw [setAssoc, if_neg h3, lookupConsIf, lookupConsIf, ih]
      by_cases h2 : k2 = k3
      · rw [if_pos h2, if_neg (fun hc => h3 (h2.symm.trans hc)), if_pos h2]
      · rw [if_neg h2, if_neg h2]

theorem lookup_append {β : Type} (a b : List (List Nat × β)) (k : List Nat) :
    (a ++ b).lookup k =
      (match a.lookup k with
       | some v => some v
       | none => b.lookup k) := by
  induction a with
  | nil => rfl
  | cons kv rest ih =>
    rcases kv with ⟨k3, v3⟩
    rw [List.cons_append, lookupConsIf, lookupConsIf]
    by_cases h : k = k3
    · rw [if_pos h, if_pos h]
    · rw [if_neg h, if_neg h, ih]

theorem lookup_eq_none_iff {β : Type} (m : List (List Nat × β)) (k : List Nat) :
    m.lookup k = none ↔ k ∉ m.map Prod.fst := by
  induction m with
  | nil => simp [List.lookup]
  | cons kv rest ih =>
    rcases kv with ⟨k3, v3⟩
    rw [lookupConsIf]
    by_cases h : k = k3
    · simp [if_pos h, h]
    · rw [if_neg h, ih]
      simp only [List.map_cons, List.mem_cons]
      constructor
      · intro hn hc
        rcases hc with hc | hc
        · exact h hc
        · exact hn hc
      · intro hn hc
        exact hn (Or.inr hc)

theorem mem_setAssoc {β : Type} (k : List Nat) (v : β) (m : List (List Nat × β)) :
    ∀ kv ∈ setAssoc k v m, kv = (k, v) ∨ kv ∈ m := by
  induction m with
  | nil => intro kv h; simp [setAssoc] at h; simp [h]
  | cons kv2 rest ih =>
    intro kv h
    by_cases h2 : kv2.1 = k
    · rw [setAssoc] at h
      rw [if_pos h2] at h
      rcases List.mem_cons.mp h with h3 | h3
      · exact Or.inl h3
      · exact Or.inr (List.mem_cons_of_mem _ h3)
    · rw [setAssoc] at h
      rw [if_neg h2] at h
      rcases List.mem_cons.mp h with h3 | h3
      · exact Or.inr (h3 ▸ List.mem_cons_self _ _)
      · rcases ih kv h3 with h4 | h4
        · exact Or.inl h4
        · exact Or.inr (List.mem_cons_of_mem _ h4)

theorem setAssoc_map_fst_of_mem {β : Type} (k : List Nat) (v : β)
    (m : List (List Nat × β)) (h : k ∈ m.map Prod.fst) :
    (setAssoc k v m).map Prod.fst = m.map Prod.fst := by
  induction m with
  | nil => simp at h
  | cons kv2 rest ih =>
    by_cases h2 : kv2.1 = k
    · rw [setAssoc, if_pos h2]
      simp [h2]
    · rw [setAssoc, if_neg h2]
      simp only [List.map_cons, List.cons.injEq, true_and]
      apply ih
      simp only [List.map_cons, List.mem_cons] at h
      rcases h with h | h
      · exact absurd h.symm h2
      · exact h

theorem dedupGo_key_inv (ps : List Professor) :
    ∀ acc, (∀ kv ∈ acc, profKey kv.2 = kv.1) →
    ∀ kv ∈ dedupGo acc ps, profKey kv.2 = kv.1 := by
  induction ps with
  | nil => intro acc hacc kv h; exact hacc kv h
  | cons p ps ih =>
    intro acc hacc kv h
    by_cases hkey : profKey p = []
    · rw [dedupGo] at h
      simp only [if_pos hkey] at h
      exact ih acc hacc kv h
    · rw [dedupGo] at h
      simp only [if_neg hkey] at h
      cases hl : acc.lookup (profKey p) with
      | none =>
        rw [hl] at h
        refine ih _ ?_ kv h
        intro kv2 h2
        rcases List.mem_append.mp h2 with h3 | h3
        · exact hacc kv2 h3
        · have : kv2 = (profKey p, { p with courses := dedupKeepFirst p.courses }) := by
            simpa using h3
          rw [this]
          rfl
      | some base =>
        rw [hl] at h
        refine ih _ ?_ kv h
        intro kv2 h2
        rcases mem_setAssoc _ _ _ kv2 h2 with h3 | h3
        · rw [h3]
          exact profKey_mergeStep (some base) p
        · exact hacc kv2 h3

theorem dedupGo_keys_nodup (ps : List Professor) :
    ∀ acc, ((acc.map Prod.fst).Nodup) → ((dedupGo acc ps).map Prod.fst).Nodup := by
  induction ps with
  | nil => intro acc h; exact h
  | cons p ps ih =>
    intro acc hacc
    by_cases hkey : profKey p = []
    · rw [dedupGo]
      simp only [if_pos hkey]
      exact ih acc hacc
    · rw [dedupGo]
      simp only [if_neg hkey]
      cases hl : acc.lookup (profKey p) with
      | none =>
        apply ih
        have hnm : profKey p ∉ acc.map Prod.fst := (lookup_eq_none_iff acc _).mp hl
        simp only [List.map_append, List.map_cons, List.map_nil]
        simp [List.nodup_append, hacc, hnm]
      | some base =>
        apply ih
        have hm : profKey p ∈ acc.map Prod.fst := by
          by_contra hc
          rw [(lookup_eq_none_iff acc _).mpr hc] at hl
          exact Option.noConfusion hl
        rw [setAssoc_map_fst_of_mem _ _ _ hm]
        exact hacc

theorem dedupGo_lookup (ps : List Professor) :
    ∀ (acc : List (List Nat × Professor)) (k : List Nat), ¬ k = [] →
    (dedupGo acc ps).lookup k =
      (ps.filter (fun p => profKey p = k)).foldl
        (fun c p => some (mergeStep c p)) (acc.lookup k) := by
  induction ps with
  | nil => intro acc k _; rfl
  | cons p ps ih =>
    intro acc k hk
    by_cases hkey : profKey p = []
    · have hne : ¬ (profKey p = k) := by rw [hkey]; intro hc; exact hk hc.symm
      rw [dedupGo]
      simp only [if_pos hkey]
      rw [List.filter_cons_of_neg (by simp [hne])]
      exact ih acc k hk
    · rw [dedupGo]
      simp only [if_neg hkey]
      cases hl : acc.lookup (profKey p) with
      | none =>
        rw [ih _ k hk]
        by_cases hpk : profKey p = k
        · rw [List.filter_cons_of_pos (by simp [hpk]), List.foldl_cons]
          congr 1
          rw [lookup_append, ← hpk, hl, lookupConsIf, if_pos rfl]
          rfl
        · rw [List.filter_cons_of_neg (by simp [hpk])]
          congr 1
          rw [lookup_append]
          cases hlk : acc.lookup k with
          | none =>
            rw [lookupConsIf, if_neg (fun hc => hpk hc.symm)]
            rfl
          | some v => rfl
      | some base =>
        rw [ih _ k hk]
        by_cases hpk : profKey p = k
        · rw [List.filter_cons_of_pos (by simp [hpk]), List.foldl_cons]
          congr 1
          rw [setAssoc_lookup, if_pos hpk.symm, ← hpk, hl]
          rfl
        · rw [List.filter_cons_of_neg (by simp [hpk])]
          congr 1
          rw [setAssoc_lookup, if_neg (fun hc => hpk hc.symm)]

/-- C6 (amended).  After KB load the professor list has exactly one entry
per lowercased-and-trimmed name (the dedup key of the source), and the
entry stored under a key is the left fold of `mergeStep` (course-list
union, later-loaded present fields overwriting) over the KB entries with
that key, in load order. -/
theorem dedupProfessors_merge_spec (ps : List Professor) :
    ((dedupProfessors ps).map profKey).Nodup ∧
    (∀ k, ¬ k = [] →
      (dedupGo [] ps).lookup k =
        (ps.filter (fun p => profKey p = k)).foldl
          (fun c p => some (mergeStep c p)) none) := by
  constructor
  · have h1 := dedupGo_keys_nodup ps [] (by simp)
    have h2 := dedupGo_key_inv ps [] (by simp)
    unfold dedupProfessors
    rw [List.map_map]
    have heq : (dedupGo [] ps).map (profKey ∘ Prod.snd) = (dedupGo [] ps).map Prod.fst :=
      List.map_congr_left (fun kv hkv => h2 kv hkv)
    rw [heq]
    exact h1
  · intro k hk
    have h := dedupGo_lookup ps [] k hk
    simpa using h

/-- First load-order variant of the duplicate professor. -/
def profChen1 : Professor :=
  { name := codeUnits ("Dr. Alice Chen"), department := some (codeUnits ("Computer Science")),
    rating := none, num_ratings := none, rmp_url := none, reviews := none,
    courses := [codeUnits ("CIS 22A")] }

/-- Second load-order variant: case/edge-space variant of the same name,
a different department, another course. -/
def profChen2 : Professor :=
  { name := codeUnits ("DR. ALICE CHEN "), department := some (codeUnits ("CS Dept")),
    rating := none, num_ratings := none, rmp_url := none, reviews := none,
    courses := [codeUnits ("CIS 22B")] }

/-- Witness for C6: the two variants merge into one professor whose
course list is the union and whose department is the later-loaded one. -/
theorem dedupProfessors_merge_witness :
    ((dedupProfessors [profChen1, profChen2]).map profKey).Nodup ∧
    ¬ (codeUnits ("dr. alice chen")) = [] ∧
    (dedupGo [] [profChen1, profChen2]).lookup (codeUnits ("dr. alice chen")) =
      ([profChen1, profChen2].filter
          (fun p => profKey p = codeUnits ("dr. alice chen"))).foldl
        (fun c p => some (mergeStep c p)) none ∧
    (dedupProfessors [profChen1, profChen2]).length = 1 ∧
    (dedupProfessors [profChen1, profChen2]).map (fun p => p.courses) =
      [[codeUnits ("CIS 22A"), codeUnits ("CIS 22B")]] ∧
    (dedupProfessors [profChen1, profChen2]).map (fun p => p.department) =
      [some (codeUnits ("CS Dept"))] :=
  ⟨(dedupProfessors_merge_spec [profChen1, profChen2]).1, by decide,
   (dedupProfessors_merge_spec [profChen1, profChen2]).2 (codeUnits ("dr. alice chen"))
     (by decide), by decide, by decide, by decide⟩

/-- Modelled from the claim's words: a case- and whitespace-insensitive
name normalization (lowercase, collapse internal whitespace, trim),
against which the source's lowercase-and-trim key is compared. -/
def claimNormalizedName (p : Professor) : List Nat :=
  trimU (collapseRuns isWsCode (toLowerU p.name))

/-- Internal-whitespace variant of the duplicate professor. -/
def profChen3 : Professor :=
  { name := codeUnits ("Dr.  Alice Chen"), department := some (codeUnits ("CS Dept")),
    rating := none, num_ratings := none, rmp_url := none, reviews := none,
    courses := [codeUnits ("CIS 22B")] }

/-- Counterexample to C6 as stated: two entries whose names are equal
under the claim's case/whitespace-insensitive normalization (they differ
only by internal whitespace) are NOT merged — the loaded list keeps two
entries, because the source's dedup key only trims edge whitespace. -/
theorem dedup_whitespace_counterexample :
    claimNormalizedName profChen1 = claimNormalizedName profChen3 ∧
    (dedupProfessors [profChen1, profChen3]).length = 2 :=
  ⟨by decide, by decide⟩

/-! ### Properties of the semantic-search stage (claim C5) -/

/-- C5.  Every hit returned by the semantic-search stage comes from an
index item with similarity at least 0.78; at most 3 hits are returned;
each score is `round(100·sim)` (JS half-up rounding); and the stage
keeps the top items: every
above-threshold index item left out has similarity at most that of every
item kept. -/
theorem semantic_stage_spec (o : Oracle) :
    (semanticHits o).length ≤ 3 ∧
    (∀ h ∈ semanticHits o, ∃ it, it ∈ semanticTop o ∧ (39/50 : ℚ) ≤ it.sim ∧
       h.type = it.type ∧ h.data = it.data ∧
       h.score = ((jsRound ((100 : ℚ) * it.sim)) : ℚ) ∧
       jsRound ((100 : ℚ) * it.sim) = round ((100 : ℚ) * it.sim)) ∧
    (∀ it ∈ semanticTop o, (39/50 : ℚ) ≤ it.sim) ∧
    (∃ rest,
      (o.embIndex.insertionSort simLe).filter (fun s => (39/50 : ℚ) ≤ s.sim) =
        semanticTop o ++ rest ∧
      ∀ y ∈ rest, ∀ x ∈ semanticTop o, y.sim ≤ x.sim) := by
  have hthr : ∀ it ∈ semanticTop o, (39/50 : ℚ) ≤ it.sim := by
    intro it hit
    have h1 : it ∈ (o.embIndex.insertionSort simLe).filter
        (fun s => (39/50 : ℚ) ≤ s.sim) := List.mem_of_mem_take hit
    have h2 := List.mem_filter.mp h1
    exact of_decide_eq_true h2.2
  refine ⟨?_, ?_, hthr, ?_⟩
  · unfold semanticHits
    rw [List.length_map]
    exact List.length_take_le 3 _
  · intro h hh
    rcases List.mem_map.mp hh with ⟨it, hit, heq⟩
    exact ⟨it, hit, hthr it hit, by rw [← heq], by rw [← heq], by rw [← heq],
      jsRound_eq_round _⟩
  · refine ⟨((o.embIndex.insertionSort simLe).filter
      (fun s => (39/50 : ℚ) ≤ s.sim)).drop 3, ?_, ?_⟩
    · exact (List.take_append_drop 3 _).symm
    · have hsorted : List.Pairwise simLe
          ((o.embIndex.insertionSort simLe).filter (fun s => (39/50 : ℚ) ≤ s.sim)) :=
        List.Pairwise.filter _ (List.sorted_insertionSort simLe o.embIndex)
      set F := (o.embIndex.insertionSort simLe).filter (fun s => (39/50 : ℚ) ≤ s.sim)
      have hsplit : F.take 3 ++ F.drop 3 = F := List.take_append_drop 3 F
      rw [← hsplit] at hsorted
      have := (List.pairwise_append.mp hsorted).2.2
      intro y hy x hx
      exact this x hx y hy

/-- Shared empty-FAQ payload for witness fixtures. -/
def faqData0 : HitData := HitData.faq { q := [], a := [], keywords := [] }

/-- Oracle fixture for the semantic-stage witness: one item above the
0.78 threshold, one below. -/
def oSem : Oracle :=
  { creds := false, fetch := fun _ => FetchOutcome.okJson none,
    embIndex := [{ type := HitType.faq, data := faqData0, sim := 9/10 },
                 { type := HitType.faq, data := faqData0, sim := 1/2 }],
    embOk := true }

/-- Witness for C5: on the fixture, the stage keeps exactly the 0.9-item
with score `round(90) = 90` and obeys the cap. -/
theorem semantic_stage_witness :
    (semanticHits oSem).length ≤ 3 ∧
    (semanticHits oSem).map (fun h => h.score) = [90] :=
  ⟨(semantic_stage_spec oSem).1, by decide⟩


/-! ### The 3-hit cap of the retrieval engine (claim C4) -/

theorem semanticHits_le3 (o : Oracle) : (semanticHits o).length ≤ 3 := by
  unfold semanticHits
  rw [List.length_map]
  exact List.length_take_le 3 _

theorem webCollect_length (rmp sch : List WebItem) (school course : List Nat)
    (hits : List Hit) :
    ∀ w, webCollect rmp sch school course hits = some w → w.length ≤ 3 := by
  intro w hw
  simp only [webCollect] at hw
  split at hw
  · rw [Option.some_inj] at hw
    rw [← hw]
    exact List.length_take_le 3 _
  · split at hw
    · rw [Option.some_inj] at hw
      rw [← hw]
      exact List.length_take_le 3 _
    · exact Option.noConfusion hw

theorem webStage_some_length (o : Oracle) (kb : KB) (q : List Nat)
    (codes : List (List Nat)) (hits : List Hit) :
    ∀ w, webStage o kb q codes hits = Except.ok (some w) → w.length ≤ 3 := by
  intro w hw
  simp only [webStage] at hw
  split at hw
  · split at hw
    · exact Except.noConfusion hw
    · split at hw
      · exact Except.noConfusion hw
      · split at hw
        · exact Except.noConfusion hw
        · split at hw
          · exact Except.noConfusion hw
          · split at hw
            · exact Except.noConfusion hw
            · rw [Except.ok.injEq] at hw
              exact webCollect_length _ _ _ _ _ w hw
  · rw [Except.ok.injEq] at hw
    exact Option.noConfusion hw

theorem rankingStage_some_length (kb : KB) (s : Session) (q : List Nat)
    (codes : List (List Nat)) :
    ∀ hs s2, rankingStage kb s q codes = (some hs, s2) → hs.length ≤ 3 := by
  intro hs s2 h
  unfold rankingStage at h
  split_ifs at h with h1
  · split at h
    · rw [Prod.mk.injEq] at h
      exact Option.noConfusion h.1
    · split at h
      · rw [Prod.mk.injEq] at h
        exact Option.noConfusion h.1
      · rw [Prod.mk.injEq] at h
        rw [Option.some_inj] at *
        rw [← h.1]
        exact List.length_take_le 3 _
  · rw [Prod.mk.injEq] at h
    exact Option.noConfusion h.1

theorem hardFilter_some_length (codes : List (List Nat)) (hits : List Hit) :
    ∀ out, hardFilter codes hits = some out → out.length ≤ 3 := by
  intro out h
  simp only [hardFilter] at h
  split at h
  · exact Option.noConfusion h
  · rw [Option.some_inj] at h
    rw [← h]
    exact List.length_take_le 3 _

theorem majorStage_some_length (kb : KB) (q : List Nat) :
    ∀ mh, majorStage kb q = some mh → mh.length ≤ 3 := by
  intro mh h
  simp only [majorStage] at h
  split at h
  · split at h
    · exact Option.noConfusion h
    · rw [Option.some_inj] at h
      rw [← h]
      exact List.length_take_le 3 _
  · exact Option.noConfusion h

theorem searchRest_length (o : Oracle) (kb : KB) (s : Session) (q : List Nat)
    (codes : List (List Nat)) :
    ∀ hits s2, searchRest o kb s q codes = Except.ok (hits, s2) → hits.length ≤ 3 := by
  intro hits s2 h
  simp only [searchRest] at h
  split at h
  · next hs s1 heq =>
    injection h with h3
    injection h3 with ha hb
    subst ha
    exact rankingStage_some_length kb s q codes hs s1 heq
  · next s1 heq =>
    split at h
    · injection h with h3
      injection h3 with ha hb
      subst ha
      exact semanticHits_le3 o
    · split at h
      · next out hout =>
        injection h with h3
        injection h3 with ha hb
        subst ha
        split at hout
        · exact hardFilter_some_length codes _ out hout
        · exact Option.noConfusion hout
      · next hout =>
        split at h
        · next mh hmj =>
          injection h with h3
          injection h3 with ha hb
          subst ha
          exact majorStage_some_length kb q mh hmj
        · next hmj =>
          split at h
          · exact Except.noConfusion h
          · next w hweb =>
            injection h with h3
            injection h3 with ha hb
            subst ha
            exact webStage_some_length o kb q codes _ w hweb
          · next hweb =>
            injection h with h3
            injection h3 with ha hb
            subst ha
            exact List.length_take_le 3 _


/-- C4 (amended).  On every return path other than the two
professor-mention paths (exact full-name and last-name), `searchLocalKB`
returns at most 3 hits; the mention paths return one professor hit per
match, without a cap. -/
theorem search_cap_spec (o : Oracle) (kb : KB) (s : Session) (q : List Nat)
    (hits : List Hit) (s2 : Session)
    (h : searchLocalKB o kb s q = Except.ok (hits, s2))
    (hex : exactMentionProfs kb (toLowerU q) = [])
    (hlast : lastNameProfs kb (toLowerU q) = []) :
    hits.length ≤ 3 := by
  simp only [searchLocalKB] at h
  split at h
  · rw [hex] at h
    exact searchRest_length o kb s q (resolvedCodes kb q) hits s2 h
  · rw [hlast] at h
    exact searchRest_length o kb s q (resolvedCodes kb q) hits s2 h

/-- Fresh session, as initialized at server start. -/
def sessionInit : Session := { lastCourse := none, lastProfessor := none, rankCursor := [] }

/-- Oracle fixture with no credentials, empty embedding index. -/
def oNone : Oracle :=
  { creds := false, fetch := fun _ => FetchOutcome.okJson none, embIndex := [], embOk := false }

/-- Professor fixture with a given name and no other data. -/
def mkProf (n : String) : Professor :=
  { name := codeUnits n, department := none, rating := none, num_ratings := none,
    rmp_url := none, reviews := none, courses := [] }

/-- Empty knowledge base fixture. -/
def kbEmpty : KB :=
  { schoolName := [], schoolWebsite := [], deadlines := [], professors := [],
    courses := [], faq := [], majors := [], rankings := [] }

/-- KB fixture with four professors sharing the last name Smith. -/
def kbSmiths : KB :=
  { kbEmpty with professors :=
      [mkProf ("Ann Smith"), mkProf ("Bob Smith"), mkProf ("Cal Smith"), mkProf ("Dan Smith")] }

/-- The hits returned for the query smith on the four-Smith KB. -/
def smithHits : List Hit :=
  match searchLocalKB oNone kbSmiths sessionInit (codeUnits ("smith")) with
  | Except.ok r => r.1
  | Except.error _ => []

/-- Counterexample to C4 as stated: the last-name professor-mention path
returns four hits for the query smith, exceeding the claimed 3-hit cap. -/
theorem search_cap_counterexample : smithHits.length = 4 := by decide

/-- Session after a successful run on the empty KB (for the witness). -/
def emptySearchOut : List Hit × Session :=
  match searchLocalKB oNone kbEmpty sessionInit (codeUnits ("zzz")) with
  | Except.ok r => r
  | Except.error _ => ([], sessionInit)

/-- Witness for C4: a concrete non-mention query obeys the cap. -/
theorem search_cap_witness :
    searchLocalKB oNone kbEmpty sessionInit (codeUnits ("zzz")) =
      Except.ok (emptySearchOut.1, emptySearchOut.2) ∧
    emptySearchOut.1.length ≤ 3 :=
  ⟨rfl,
   search_cap_spec oNone kbEmpty sessionInit (codeUnits ("zzz"))
     emptySearchOut.1 emptySearchOut.2 rfl (by decide) (by decide)⟩

/-! ### The ranking-lookup stage (claim C1) -/

theorem sortedRankingSearch_sorted (kb : KB) (code : List Nat) :
    List.Sorted rankLe (sortedRankingSearch kb code) := by
  unfold sortedRankingSearch
  exact List.sorted_insertionSort rankLe _

theorem rankChosen_sorted (kb : KB) (q code : List Nat) :
    List.Sorted rankLe (rankChosen kb q code) := by
  simp only [rankChosen]
  apply List.Pairwise.sublist (List.take_sublist 3 _)
  split_ifs <;> first
    | exact sortedRankingSearch_sorted kb code
    | exact List.Pairwise.filter _ (sortedRankingSearch_sorted kb code)

theorem mkRankingHit_score (kb : KB) (code : List Nat) (e : RankEntry)
    (n : Nat) (hrank : e.rank = some n) (hn : 1 ≤ n) :
    (mkRankingHit kb code e).score = 100 - (n : ℚ) * 2 := by
  simp only [mkRankingHit, rankOr, hrank]
  rw [if_neg (by omega : ¬ n = 0)]

/-- C1 (amended).  For every query with no professor full-name or
last-name mention (which would short-circuit earlier) that expresses a
ranking intent and resolves a course code whose chosen ranking selection
is non-empty (with a non-blank top name), `searchLocalKB` returns the
chosen ranking hits in ascending-rank order followed by the course hit
(score 0) when the course exists, the whole output capped at 3 hits;
it sets `lastCourse` to the code, `rankCursor[code]` to 0, and
`lastProfessor` to the top-ranked name; each hit built from an entry of
rank `n ≥ 1` scores `100 - n*2`. -/
theorem ranking_stage_spec (o : Oracle) (kb : KB) (s : Session) (q : List Nat)
    (code : List Nat) (cs : List (List Nat)) (e0 : RankEntry) (es : List RankEntry)
    (hex : exactMentionProfs kb (toLowerU q) = [])
    (hlast : lastNameProfs kb (toLowerU q) = [])
    (hasked : (parseRankIntent q).asked = true)
    (hcodes : resolvedCodes kb q = code :: cs)
    (hchosen : rankChosen kb q code = e0 :: es)
    (hname : ¬ e0.name = []) :
    searchLocalKB o kb s q =
      Except.ok ((((e0 :: es).map (mkRankingHit kb code)) ++ rankingCourseHits kb code).take 3,
        { lastCourse := some code,
          lastProfessor := some e0.name,
          rankCursor := setAssoc code 0 s.rankCursor }) ∧
    (setAssoc code 0 s.rankCursor).lookup code = some 0 ∧
    List.Sorted rankLe (e0 :: es) ∧
    (∀ e ∈ (e0 :: es), ∀ n : Nat, e.rank = some n → 1 ≤ n →
      (mkRankingHit kb code e).score = 100 - (n : ℚ) * 2) := by
  refine ⟨?_, ?_, ?_, ?_⟩
  · have hrest : searchRest o kb s q (resolvedCodes kb q) =
        Except.ok ((((e0 :: es).map (mkRankingHit kb code)) ++
            rankingCourseHits kb code).take 3,
          { lastCourse := some code, lastProfessor := some e0.name,
            rankCursor := setAssoc code 0 s.rankCursor }) := by
      have hstage : rankingStage kb s q (resolvedCodes kb q) =
          (some ((((e0 :: es).map (mkRankingHit kb code)) ++
              rankingCourseHits kb code).take 3),
            { lastCourse := some code, lastProfessor := some e0.name,
              rankCursor := setAssoc code 0 s.rankCursor }) := by
        rw [hcodes]
        simp only [rankingStage, hasked, if_true, hchosen]
        rw [if_neg (by simp [List.isEmpty_iff, hname])]
      simp only [searchRest, hstage]
    simp only [searchLocalKB]
    split
    · rw [hex]
      exact hrest
    · rw [hlast]
      exact hrest
  · rw [setAssoc_lookup]
    rw [if_pos rfl]
  · rw [← hchosen]
    exact rankChosen_sorted kb q code
  · intro e _ n hrank hn
    exact mkRankingHit_score kb code e n hrank hn

/-- Ranking entry fixture: top-ranked professor X. -/
def entX : RankEntry := { name := codeUnits ("Prof X"), rank := some 1, tags := [], notes := none }

/-- Ranking entry fixture: second-ranked professor Y. -/
def entY : RankEntry := { name := codeUnits ("Prof Y"), rank := some 2, tags := [], notes := none }

/-- Ranking entry fixture: third-ranked professor Z. -/
def entZ : RankEntry := { name := codeUnits ("Prof Z"), rank := some 3, tags := [], notes := none }

/-- The spec's example query. -/
def qBest : List Nat := codeUnits ("best professor for MATH 1A")

/-- KB fixture of the spec's ranking example. -/
def kbMath : KB := { kbEmpty with rankings := [(codeUnits ("MATH 1A"), [entX, entY])] }

/-- Witness for C1: the example query over the example KB returns the
ranking hits for Prof X then Prof Y and sets the session as claimed. -/
theorem ranking_stage_witness :
    searchLocalKB oNone kbMath sessionInit qBest =
      Except.ok ((((entX :: [entY]).map (mkRankingHit kbMath (codeUnits ("MATH 1A")))) ++
          rankingCourseHits kbMath (codeUnits ("MATH 1A"))).take 3,
        { lastCourse := some (codeUnits ("MATH 1A")),
          lastProfessor := some (codeUnits ("Prof X")),
          rankCursor := setAssoc (codeUnits ("MATH 1A")) 0 [] }) ∧
    ((rankChosen kbMath qBest (codeUnits ("MATH 1A"))).map (fun e => e.name)) =
      [codeUnits ("Prof X"), codeUnits ("Prof Y")] ∧
    ((rankChosen kbMath qBest (codeUnits ("MATH 1A"))).map
        (fun e => (mkRankingHit kbMath (codeUnits ("MATH 1A")) e).score)) = [98, 96] :=
  ⟨(ranking_stage_spec oNone kbMath sessionInit qBest (codeUnits ("MATH 1A")) [] entX [entY]
      (by decide) (by decide) (by decide) (by decide) (by decide) (by decide)).1,
   by decide, by decide⟩

/-- Course fixture for the resolved code. -/
def crsMath : Course :=
  { code := codeUnits ("MATH 1A"), title := codeUnits ("Calculus"),
    department := codeUnits ("Mathematics"), description := none, notes := none }

/-- KB fixture with a 3-entry ranking list AND the course present. -/
def kbMath3 : KB :=
  { kbEmpty with
    courses := [crsMath]
    rankings := [(codeUnits ("MATH 1A"), [entX, entY, entZ])] }

/-- Hits returned for the example query over the 3-entry KB. -/
def c1CexHits : List Hit :=
  match searchLocalKB oNone kbMath3 sessionInit qBest with
  | Except.ok r => r.1
  | Except.error _ => []

/-- Counterexample to C1 as stated: with three ranked entries the course
exists in the KB but NO course hit is returned — the 3-hit cap drops it,
so the claimed "plus one course hit with score 0 when the course exists"
fails. -/
theorem ranking_stage_counterexample :
    (kbMath3.courses.find? (fun c => canonCourse c.code = codeUnits ("MATH 1A"))).isSome = true ∧
    c1CexHits.length = 3 ∧
    c1CexHits.all (fun h => h.type == HitType.ranking) = true := by
  refine ⟨by decide, by decide, by decide⟩

/-! ### The deterministic class-full handoff (claims C2, C3, C10) -/

theorem isPrefixU_iff (a b : List Nat) : isPrefixU a b = true ↔ a <+: b := by
  induction a generalizing b with
  | nil => simp [isPrefixU]
  | cons x xs ih =>
    cases b with
    | nil => simp [isPrefixU]
    | cons y ys =>
      rw [isPrefixU]
      simp only [Bool.and_eq_true, decide_eq_true_eq, List.cons_prefix_cons]
      rw [ih]

theorem isInfixU_iff (a b : List Nat) : isInfixU a b = true ↔ a <:+: b := by
  unfold isInfixU
  rw [List.any_eq_true]
  constructor
  · rintro ⟨t, ht, hp⟩
    rw [List.mem_tails] at ht
    rw [isPrefixU_iff] at hp
    exact List.infix_iff_prefix_suffix.mpr ⟨t, hp, ht⟩
  · intro h
    rcases List.infix_iff_prefix_suffix.mp h with ⟨t, hp, ht⟩
    exact ⟨t, (List.mem_tails t b).mpr ht, (isPrefixU_iff a t).mpr hp⟩

theorem isInfixU_append_middle (pre x post : List Nat) :
    isInfixU x (pre ++ x ++ post) = true := by
  rw [isInfixU_iff]
  exact ⟨pre, post, rfl⟩

theorem name_infix_serveReply (kb : KB) (course : List Nat) (nb : RankEntry) :
    isInfixU nb.name (serveReply kb course nb) = true := by
  have h : serveReply kb course nb =
      (codeUnits ("Next best for ") ++ course ++ codeUnits (" is **")) ++ nb.name ++
        serveReplyTail kb nb := by
    simp [serveReply, List.append_assoc]
  rw [h]
  exact isInfixU_append_middle _ _ _

theorem addDate_infix_exhaustReply (kb : KB) (course : List Nat) :
    isInfixU (addDropDate kb) (exhaustReply kb course) = true := by
  have h : exhaustReply kb course =
      (codeUnits ("I’ve listed everyone I have for ") ++ course ++
        codeUnits (". At this point: join the waitlist (if offered), email the instructor for an add code, and check ")) ++
      addDropDate kb ++ codeUnits (".") := by
    simp [exhaustReply, List.append_assoc]
  rw [h]
  exact isInfixU_append_middle _ _ _

/-- C2 (amended).  Whenever the detected intent is `class_full`,
`lastCourse` is set, and the course's ranking list is non-empty, the
handler answers deterministically without calling the completion
collaborator: if an entry exists at the resume index it advances
`rankCursor` to that index, sets `lastProfessor` to that entry's name,
and the reply names that professor; if the list is exhausted it replies
that all known names were given, including the add-deadline date (or the
generic phrase) computed by `addDropDate`. -/
theorem class_full_handoff_spec (kb : KB) (s : Session) (hits : List Hit)
    (course : List Nat) (hc : s.lastCourse = some course)
    (hl : ¬ sortedRankingH kb course = []) :
    (∀ nb, (sortedRankingH kb course)[handoffNextIndex (sortedRankingH kb course) s course]? =
        some nb →
      chatPipeline kb s Intent.class_full hits =
        HandlerOut.det (serveReply kb course nb)
          { s with
            rankCursor :=
              setAssoc course (handoffNextIndex (sortedRankingH kb course) s course)
                s.rankCursor,
            lastProfessor := some nb.name } ∧
      isInfixU nb.name (serveReply kb course nb) = true) ∧
    ((sortedRankingH kb course)[handoffNextIndex (sortedRankingH kb course) s course]? =
        none →
      chatPipeline kb s Intent.class_full hits =
        HandlerOut.det (exhaustReply kb course) s ∧
      isInfixU (addDropDate kb) (exhaustReply kb course) = true) := by
  have hemp : ¬ (sortedRankingH kb course).isEmpty = true := by
    simp [List.isEmpty_iff, hl]
  constructor
  · intro nb hnb
    refine ⟨?_, name_infix_serveReply kb course nb⟩
    simp only [chatPipeline, hc]
    simp only [handoffBlock, if_neg hemp, hnb]
    rw [hc]
  · intro hnone
    refine ⟨?_, addDate_infix_exhaustReply kb course⟩
    simp only [chatPipeline, hc]
    simp only [handoffBlock, if_neg hemp, hnone]

/-- Session after the C1 example turn (cursor 0, Prof X suggested). -/
def sEx1 : Session :=
  { lastCourse := some (codeUnits ("MATH 1A")),
    lastProfessor := some (codeUnits ("Prof X")),
    rankCursor := [(codeUnits ("MATH 1A"), 0)] }

/-- Session after the second (class-full) turn of the example. -/
def sEx2 : Session :=
  { lastCourse := some (codeUnits ("MATH 1A")),
    lastProfessor := some (codeUnits ("Prof Y")),
    rankCursor := [(codeUnits ("MATH 1A"), 1)] }

/-- Witness for C2: after the MATH 1A ranking query, the next class-full
turn deterministically names Prof Y and advances the cursor to 1, and a
third consecutive class-full turn yields the exhaustion reply. -/
theorem class_full_handoff_witness :
    chatPipeline kbMath sEx1 Intent.class_full [] =
      HandlerOut.det (serveReply kbMath (codeUnits ("MATH 1A")) entY)
        { lastCourse := some (codeUnits ("MATH 1A")),
          lastProfessor := some (codeUnits ("Prof Y")),
          rankCursor := [(codeUnits ("MATH 1A"), 1)] } ∧
    isInfixU (codeUnits ("Prof Y")) (serveReply kbMath (codeUnits ("MATH 1A")) entY) = true ∧
    chatPipeline kbMath sEx2 Intent.class_full [] =
      HandlerOut.det (exhaustReply kbMath (codeUnits ("MATH 1A"))) sEx2 :=
  ⟨((class_full_handoff_spec kbMath sEx1 [] (codeUnits ("MATH 1A")) rfl
      (by decide)).1 entY (by decide)).1,
   ((class_full_handoff_spec kbMath sEx1 [] (codeUnits ("MATH 1A")) rfl
      (by decide)).1 entY (by decide)).2,
   ((class_full_handoff_spec kbMath sEx2 [] (codeUnits ("MATH 1A")) rfl
      (by decide)).2 (by decide)).1⟩

/-- Session pointing at a course with no ranking list. -/
def sNoRank : Session :=
  { lastCourse := some (codeUnits ("MATH 9Z")), lastProfessor := none, rankCursor := [] }

/-- Counterexample to C2 as stated: with intent `class_full` and
`lastCourse` set but an empty ranking list for the course, the handler
does NOT answer deterministically — it falls through to the completion
collaborator. -/
theorem class_full_handoff_counterexample :
    sNoRank.lastCourse = some (codeUnits ("MATH 9Z")) ∧
    chatPipeline kbMath sNoRank Intent.class_full [] = HandlerOut.llm [] sNoRank :=
  ⟨rfl, by decide⟩

theorem injectionNextBest_nil (s : Session) : injectionNextBest [] s = none := by
  simp only [injectionNextBest]
  cases s.lastProfessor <;> rfl

/-- C10.  The secondary second-best injection block never adds a ranking
hit: with intent `class_full` and `lastCourse` set, a non-empty ranking
list makes the deterministic handoff return first, and an empty list
leaves the injection block without a candidate, so the completion
collaborator receives exactly the pre-injection filtered hits and the
session is unchanged. -/
theorem injection_unreachable (kb : KB) (s : Session) (hits : List Hit)
    (course : List Nat) (hc : s.lastCourse = some course) :
    (¬ sortedRankingH kb course = [] →
       ∃ r s2, chatPipeline kb s Intent.class_full hits = HandlerOut.det r s2) ∧
    (sortedRankingH kb course = [] →
       chatPipeline kb s Intent.class_full hits =
         HandlerOut.llm (contextSnippets (filterByIntent Intent.class_full hits)) s) := by
  constructor
  · intro hl
    have hemp : ¬ (sortedRankingH kb course).isEmpty = true := by
      simp [List.isEmpty_iff, hl]
    simp only [chatPipeline, hc]
    cases hb : handoffBlock kb course s with
    | some res =>
      rcases res with ⟨out, s2⟩
      exact ⟨_, _, rfl⟩
    | none =>
      exfalso
      simp only [handoffBlock, if_neg hemp] at hb
      split at hb <;> exact Option.noConfusion hb
  · intro hl
    have hemp : (sortedRankingH kb course).isEmpty = true := by
      simp [List.isEmpty_iff, hl]
    simp only [chatPipeline, hc]
    simp only [handoffBlock, if_pos hemp]
    have hinj : injectionBlock kb course s (filterByIntent Intent.class_full hits) =
        (filterByIntent Intent.class_full hits, s) := by
      simp only [injectionBlock, hl, injectionNextBest_nil]
    rw [hinj]
  
/-- Witness for C10: with a non-empty list the handoff answers
deterministically; with an empty list the collaborator receives the
unmodified filtered hits and session. -/
theorem injection_unreachable_witness :
    sEx1.lastCourse = some (codeUnits ("MATH 1A")) ∧
    (∃ r s2, chatPipeline kbMath sEx1 Intent.class_full [] = HandlerOut.det r s2) ∧
    chatPipeline kbMath sNoRank Intent.class_full [] =
      HandlerOut.llm (contextSnippets (filterByIntent Intent.class_full [])) sNoRank :=
  ⟨rfl,
   (injection_unreachable kbMath sEx1 [] (codeUnits ("MATH 1A")) rfl).1 (by decide),
   (injection_unreachable kbMath sNoRank [] (codeUnits ("MATH 9Z")) rfl).2 (by decide)⟩

/-! ### Web-fallback error handling (claim C7) -/

theorem searchRest_error_from_web (o : Oracle) (kb : KB) (s : Session)
    (q : List Nat) (codes : List (List Nat)) :
    ∀ e, searchRest o kb s q codes = Except.error e →
      webStage o kb q codes
        ((keywordHits kb q codes (extractDeptHint q)).insertionSort
          (hitLe (askedBestProf q codes = true))) = Except.error e := by
  intro e h
  simp only [searchRest] at h
  split at h
  · exact Except.noConfusion h
  · split at h
    · exact Except.noConfusion h
    · split at h
      · exact Except.noConfusion h
      · split at h
        · exact Except.noConfusion h
        · split at h
          · assumption
          · exact Except.noConfusion h
          · exact Except.noConfusion h

/-- C7 (amended).  Missing credentials, a non-success HTTP status, or a
parsed body without an `items` array make `webSearch` return the empty
list without raising; but a rejected `fetch` (network failure) or a
malformed body makes `webSearch` throw, and a throw inside the web
fallback propagates out of `searchLocalKB`'s remaining pipeline (the
last conjunct: `searchRest` can only fail via the web stage, whose
errors it re-raises). -/
theorem webSearch_degrade (o : Oracle) (q : List Nat) (site : Option (List Nat)) (n : Nat) :
    (o.creds = false → webSearch o q site n = Except.ok []) ∧
    (∀ st, o.creds = true → o.fetch (webQueryOf site q) = FetchOutcome.httpError st →
       webSearch o q site n = Except.ok []) ∧
    (o.creds = true → o.fetch (webQueryOf site q) = FetchOutcome.okJson none →
       webSearch o q site n = Except.ok []) ∧
    (o.creds = true → o.fetch (webQueryOf site q) = FetchOutcome.netError →
       webSearch o q site n = Except.error ()) ∧
    (o.creds = true → o.fetch (webQueryOf site q) = FetchOutcome.okMalformed →
       webSearch o q site n = Except.error ()) ∧
    (∀ kb s codes e, searchRest o kb s q codes = Except.error e →
       webStage o kb q codes
         ((keywordHits kb q codes (extractDeptHint q)).insertionSort
           (hitLe (askedBestProf q codes = true))) = Except.error e) := by
  refine ⟨?_, ?_, ?_, ?_, ?_, ?_⟩
  · intro h
    simp [webSearch, h]
  · intro st hc hf
    simp [webSearch, hc, hf]
  · intro hc hf
    simp [webSearch, hc, hf]
  · intro hc hf
    simp [webSearch, hc, hf]
  · intro hc hf
    simp [webSearch, hc, hf]
  · intro kb s codes e h
    exact searchRest_error_from_web o kb s q codes e h

/-- Oracle fixture whose every fetch rejects (network failure). -/
def oNet : Oracle :=
  { creds := true, fetch := fun _ => FetchOutcome.netError, embIndex := [], embOk := false }

/-- Counterexample to C7 as stated: a rejected fetch inside the web
fallback propagates an exception out of the search call (caught only by
the top-level request handler). -/
theorem web_throw_counterexample :
    searchLocalKB oNet kbEmpty sessionInit (codeUnits ("best professor for CIS 99")) =
      Except.error () := rfl

/-- Oracle fixture whose every fetch yields HTTP 500. -/
def oHttp : Oracle :=
  { creds := true, fetch := fun _ => FetchOutcome.httpError 500, embIndex := [], embOk := false }

/-- Witness for C7: a non-success status and missing credentials yield
empty results without throwing, and a network failure throws. -/
theorem webSearch_degrade_witness :
    webSearch oHttp (codeUnits ("x")) none 5 = Except.ok [] ∧
    webSearch oNone (codeUnits ("x")) none 5 = Except.ok [] ∧
    webSearch oNet (codeUnits ("x")) none 5 = Except.error () :=
  ⟨(webSearch_degrade oHttp (codeUnits ("x")) none 5).2.1 500 rfl rfl,
   (webSearch_degrade oNone (codeUnits ("x")) none 5).1 rfl,
   (webSearch_degrade oNet (codeUnits ("x")) none 5).2.2.2.1 rfl rfl⟩

/-- In a list whose lowercased names are pairwise distinct, `findIdx?`
for the name of the entry at position `i` finds exactly `i` (shifted by
the start index). -/
theorem findIdx_distinct (nb : RankEntry) :
    ∀ (l : List RankEntry) (st i : Nat),
      l.Pairwise (fun a b => toLowerU a.name ≠ toLowerU b.name) →
      l[i]? = some nb →
      l.findIdx? (fun r => toLowerU r.name = toLowerU nb.name) st = some (st + i) := by
  intro l
  induction l with
  | nil => intro st i _ hi; simp at hi
  | cons a tl ih =>
    intro st i hd hi
    rcases List.pairwise_cons.mp hd with ⟨ha, htl⟩
    cases i with
    | zero =>
      simp only [List.getElem?_cons_zero, Option.some.injEq] at hi
      subst hi
      rw [List.findIdx?_cons, if_pos (by simp)]
      rfl
    | succ j =>
      simp only [List.getElem?_cons_succ] at hi
      have hmem : nb ∈ tl := List.getElem?_mem hi
      have hne : toLowerU a.name ≠ toLowerU nb.name := ha nb hmem
      rw [List.findIdx?_cons, if_neg (by simp [hne]), ih (st + 1) j htl hi]
      congr 1
      omega

/-- C3 (amended).  For every course whose rank-sorted list has pairwise
distinct lowercased names, consecutive handoff calls advance strictly:
a call that served index `i` is followed by a call that serves index
`i + 1` (or the exhaustion reply when the list ends), so no entry is
served twice before exhaustion; and the exhaustion outcome is absorbing
(it leaves the session unchanged, so every later call reproduces it).
Without the distinctness hypothesis the property fails, because the
resume index is recomputed from the FIRST occurrence of
`lastProfessor`'s name. -/
theorem handoff_monotone_spec (kb : KB) (course : List Nat) (s s2 : Session)
    (hd : (sortedRankingH kb course).Pairwise
      (fun a b => toLowerU a.name ≠ toLowerU b.name)) :
    (∀ i nb r, handoffBlock kb course s = some (HandoffOut.serve i nb r, s2) →
       handoffBlock kb course s2 =
         match (sortedRankingH kb course)[i + 1]? with
         | some nb2 =>
           some (HandoffOut.serve (i + 1) nb2 (serveReply kb course nb2),
             { s2 with rankCursor := setAssoc course (i + 1) s2.rankCursor,
                       lastProfessor := some nb2.name })
         | none => some (HandoffOut.exhausted (exhaustReply kb course), s2)) ∧
    (∀ r, handoffBlock kb course s = some (HandoffOut.exhausted r, s2) →
       handoffBlock kb course s2 = some (HandoffOut.exhausted r, s2)) := by
  constructor
  · intro i nb r hb
    simp only [handoffBlock] at hb
    split at hb
    · exact Option.noConfusion hb
    · split at hb
      · simp at hb
      · next nb0 heq =>
        rw [Option.some.injEq, Prod.mk.injEq] at hb
        obtain ⟨h1, h2⟩ := hb
        rw [HandoffOut.serve.injEq] at h1
        obtain ⟨hidx, hnb, -⟩ := h1
        rw [hidx] at heq h2
        subst nb0
        subst h2
        have hget : (sortedRankingH kb course)[i]? = some nb := heq
        have hlt : i < (sortedRankingH kb course).length :=
          (List.getElem?_eq_some.mp hget).1
        have hne : ¬ (sortedRankingH kb course).isEmpty = true := by
          simp only [List.isEmpty_iff]
          intro hnil
          rw [hnil] at hlt
          simp at hlt
        have hfind := findIdx_distinct nb (sortedRankingH kb course) 0 i hd hget
        have hnx : handoffNextIndex (sortedRankingH kb course)
            { s with rankCursor := setAssoc course i s.rankCursor,
                     lastProfessor := some nb.name } course = i + 1 := by
          simp only [handoffNextIndex, hfind]
          omega
        simp only [handoffBlock, if_neg hne, hnx]
        cases hg : (sortedRankingH kb course)[i + 1]? <;> simp [hg]
  · intro r hb
    simp only [handoffBlock] at hb
    split at hb
    · exact Option.noConfusion hb
    · split at hb
      · next heq =>
        rw [Option.some.injEq, Prod.mk.injEq] at hb
        obtain ⟨h1, h2⟩ := hb
        injection h1 with hr
        subst h2
        subst hr
        simp only [handoffBlock]
        rw [if_neg (by assumption), heq]
      · simp at hb

set_option maxRecDepth 8192 in
/-- Witness for C3: in the MATH 1A example the names are pairwise
distinct; serving index 1 (Prof Y) is followed, per the theorem, by the
exhaustion reply on the two-entry list. -/
theorem handoff_monotone_witness :
    (sortedRankingH kbMath (codeUnits ("MATH 1A"))).Pairwise
      (fun a b => toLowerU a.name ≠ toLowerU b.name) ∧
    handoffBlock kbMath (codeUnits ("MATH 1A")) sEx1 =
      some (HandoffOut.serve 1 entY
        (serveReply kbMath (codeUnits ("MATH 1A")) entY), sEx2) ∧
    handoffBlock kbMath (codeUnits ("MATH 1A")) sEx2 =
      some (HandoffOut.exhausted
        (exhaustReply kbMath (codeUnits ("MATH 1A"))), sEx2) := by
  refine ⟨by decide, by decide, ?_⟩
  have h := (handoff_monotone_spec kbMath (codeUnits ("MATH 1A")) sEx1 sEx2
      (by decide)).1 1 entY
      (serveReply kbMath (codeUnits ("MATH 1A")) entY) (by decide)
  rw [h]
  decide

/-- First-ranked entry named Prof A of the duplicate-name example. -/
def eA1 : RankEntry :=
  { name := codeUnits ("Prof A"), rank := some 1, tags := [], notes := none }

/-- Second-ranked entry named Prof B of the duplicate-name example. -/
def eB2 : RankEntry :=
  { name := codeUnits ("Prof B"), rank := some 2, tags := [], notes := none }

/-- Third-ranked entry, ALSO named Prof A. -/
def eA3 : RankEntry :=
  { name := codeUnits ("Prof A"), rank := some 3, tags := [], notes := none }

/-- KB whose CIS 1 ranking list repeats the name Prof A at ranks 1 and 3. -/
def kbDup : KB :=
  { kbEmpty with rankings := [(codeUnits ("CIS 1"), [eA1, eB2, eA3])] }

/-- Session after the ranking stage served rank 1 (Prof A) for CIS 1. -/
def sDup0 : Session :=
  { lastCourse := some (codeUnits ("CIS 1")),
    lastProfessor := some (codeUnits ("Prof A")),
    rankCursor := [(codeUnits ("CIS 1"), 0)] }

/-- Session after a handoff served index 1 (Prof B). -/
def sDup1 : Session :=
  { lastCourse := some (codeUnits ("CIS 1")),
    lastProfessor := some (codeUnits ("Prof B")),
    rankCursor := [(codeUnits ("CIS 1"), 1)] }

/-- Session after a handoff served index 2 (the second Prof A). -/
def sDup2 : Session :=
  { lastCourse := some (codeUnits ("CIS 1")),
    lastProfessor := some (codeUnits ("Prof A")),
    rankCursor := [(codeUnits ("CIS 1"), 2)] }

set_option maxRecDepth 8192 in
/-- Counterexample to C3 as stated: with a duplicated professor name in
the ranking list, three consecutive handoff calls serve indices 1, 2, 1
— the index DECREASES and Prof B is served twice before the list is
exhausted, because the resume index is recomputed from the first
occurrence of `lastProfessor`'s name. -/
theorem handoff_monotone_counterexample :
    handoffBlock kbDup (codeUnits ("CIS 1")) sDup0 =
      some (HandoffOut.serve 1 eB2
        (serveReply kbDup (codeUnits ("CIS 1")) eB2), sDup1) ∧
    handoffBlock kbDup (codeUnits ("CIS 1")) sDup1 =
      some (HandoffOut.serve 2 eA3
        (serveReply kbDup (codeUnits ("CIS 1")) eA3), sDup2) ∧
    handoffBlock kbDup (codeUnits ("CIS 1")) sDup2 =
      some (HandoffOut.serve 1 eB2
        (serveReply kbDup (codeUnits ("CIS 1")) eB2), sDup1) := by
  refine ⟨by decide, by decide, by decide⟩

/-- C9.  The context assembler filters hits to the intent's allow-list,
re-admits faq hits when the intent is prof_ranking and no professor or
ranking hit survived the plain filter, caps the snippets to 5, and
truncates each formatted snippet to 600 characters with an ellipsis
marker (total length 603) exactly when it exceeds that length. -/
theorem context_assembly_spec (intent : Intent) (hits : List Hit) (txt : List Nat) :
    (∀ h2 ∈ filterByIntent intent hits, h2 ∈ hits ∧
       ((allowedTypes intent).contains h2.type = true ∨
        (intent = Intent.prof_ranking ∧ h2.type = HitType.faq))) ∧
    ((intent = Intent.prof_ranking →
       ¬ ((hits.filter (fun x => (allowedTypes intent).contains x.type)).any
            (fun x => x.type = HitType.professor ∨ x.type = HitType.ranking) = true) →
       ∀ h2 ∈ hits, h2.type = HitType.faq → h2 ∈ filterByIntent intent hits)) ∧
    (usedHitsOf (filterByIntent intent hits)).length ≤ 5 ∧
    (txt.length ≤ 600 → snippetBody txt = txt) ∧
    (600 < txt.length →
       snippetBody txt = txt.take 600 ++ codeUnits ("...") ∧
       (snippetBody txt).length = 603) := by
  refine ⟨?_, ?_, ?_, ?_, ?_⟩
  · intro h2 hmem
    simp only [filterByIntent] at hmem
    split at hmem
    · next hcond =>
      rw [List.mem_filter] at hmem
      refine ⟨hmem.1, ?_⟩
      rcases Bool.or_eq_true_iff.mp hmem.2 with hc | hf
      · exact Or.inl hc
      · exact Or.inr ⟨hcond.1, by simpa using hf⟩
    · rw [List.mem_filter] at hmem
      exact ⟨hmem.1, Or.inl hmem.2⟩
  · intro hint hnone h2 hmem hfaq
    simp only [filterByIntent]
    rw [if_pos ⟨hint, by simpa using hnone⟩]
    rw [List.mem_filter]
    exact ⟨hmem, by simp [hfaq]⟩
  · exact List.length_take_le 5 _
  · intro hle
    simp only [snippetBody]
    rw [if_neg (by omega)]
  · intro hgt
    simp only [snippetBody]
    rw [if_pos hgt]
    refine ⟨rfl, ?_⟩
    rw [List.length_append, List.length_take]
    have : min 600 txt.length = 600 := by omega
    rw [this]
    rfl

/-- A course hit used in the C9 witness. -/
def hCourseC9 : Hit :=
  { type := HitType.course, score := 10,
    data := HitData.course
      { code := codeUnits ("CIS 1"), title := codeUnits ("Intro"),
        department := codeUnits ("CIS"), description := none, notes := none } }

/-- A faq hit used in the C9 witness. -/
def hFaqC9 : Hit :=
  { type := HitType.faq, score := 5,
    data := HitData.faq
      { q := codeUnits ("How do I add a class?"),
        a := codeUnits ("Use the portal."), keywords := [] } }

/-- A formatted snippet text of 601 characters. -/
def txtLong : List Nat := List.replicate 601 97

set_option maxRecDepth 8192 in
/-- Witness for C9: with intent prof_ranking and hits [course, faq] (no
professor or ranking survivor), the faq hit is re-admitted; the snippet
list is capped at 5; a 601-character text is truncated to 603 characters
(600 plus the ellipsis marker). -/
theorem context_assembly_witness :
    hFaqC9 ∈ filterByIntent Intent.prof_ranking [hCourseC9, hFaqC9] ∧
    (usedHitsOf (filterByIntent Intent.prof_ranking [hCourseC9, hFaqC9])).length ≤ 5 ∧
    snippetBody txtLong = txtLong.take 600 ++ codeUnits ("...") ∧
    (snippetBody txtLong).length = 603 := by
  have h := context_assembly_spec Intent.prof_ranking [hCourseC9, hFaqC9] txtLong
  refine ⟨h.2.1 rfl (by decide) hFaqC9 (by decide) rfl, h.2.2.1,
    (h.2.2.2.2 (by decide)).1, (h.2.2.2.2 (by decide)).2⟩
end ProofDevelopment
